import Mathlib

/-!
# SQL statement builder (`x/sqlbuilder`): embedding and verified properties

The development embeds `SelectStatement.buildQuery`, `JoinClause.WriteTo`,
`cloneJoinClauses`, `SelectStatement.Clone` (select_statement.go) and
`DeleteStatement.buildQuery` (delete_statement.go); the connection
configuration of `backend/postgres` (config.go) follows in its own namespace.

Conventions of the embedding:
* a Go slice is a `List`; the `nil` slice is the empty list;
* a Go `error` result is an `Option Error`, `none` being the `nil` error;
* an optional predicate (an interface value that may be `nil`) is an
  `Option PredicateClause`;
* a call that can end in a run-time panic (a method call on a `nil` interface)
  returns a `Run`, whose `panic` constructor is that outcome;
* the writer that Go code mutates through a pointer is passed and returned
  explicitly;
* `strings.ToUpper`, a function of the Go standard library, is the parameter
  `upper` of `JoinClause.WriteTo` and of every definition that reaches it;
* `Marker`, `PredicateClause`, the query writer and the error values are
  declared outside the visible source: they are modelled from the
  specification, and each such definition says so.
-/

namespace sqlbuilder

/-! ## Data model -/

/-- Modelled from the spec: the run-time values of the value map
(`interface{}` in the source), as the tagged variant of section 9. The builder
never inspects a value, it only stores it. -/
inductive Value where
  | int (n : Int)
  | text (s : String)
  | bool (b : Bool)
  | null
  deriving DecidableEq, Repr

/-- The value map `map[string]interface{}`: an association list read with
`List.lookup` (first entry of a key). -/
abbrev ValueMap := List (String × Value)

/-- Modelled from the spec: the error kinds of section 7. `noMarkers` is the
missing-marker error, `missingParameter` the unresolved-parameter error
carrying the name that was absent from the value map. Their declarations are
not in the visible source. -/
inductive Error where
  | noMarkers
  | missingParameter (name : String)
  deriving DecidableEq, Repr

/-- Modelled from the spec: `errNoMarkers`, the missing-marker error returned
by `SelectStatement.buildQuery`; its declaration is not in the visible
source. -/
def errNoMarkers : Error := Error.noMarkers

/-- Outcome of a Go call that may panic at run time. -/
inductive Run (α : Type) where
  | panic
  | ret (a : α)
  deriving DecidableEq, Repr

/-- Modelled from the spec: `Marker` (section 4.2), a SQL text fragment and
the binding name under which its result is returned. The type is declared
outside the visible source. -/
structure Marker where
  sql : String
  binding : String
  deriving DecidableEq, Repr

/-- Modelled from the spec: `Marker.ToSQL`, the literal SQL fragment. -/
def Marker.ToSQL (m : Marker) : String := m.sql

/-- Modelled from the spec: `Marker.Binding`, the binding name. -/
def Marker.Binding (m : Marker) : String := m.binding

/-- Modelled from the spec: `cloneMarkers`, an independent copy of a marker
list (section 4.5); markers hold only text, so the copy is element-wise. -/
def cloneMarkers (ms : List Marker) : List Marker :=
  ms.map fun m => { sql := m.sql, binding := m.binding }

/-- Modelled from the spec: `queryWriter` (section 4.1), an append-only text
accumulator paired with the ordered list of bound values. The source shows
its `WriteString`, `String` and `vs` members; its declaration is not in the
visible source. -/
structure queryWriter where
  buf : String
  vs : List Value
  deriving DecidableEq, Repr

/-- The zero value `var qw queryWriter`: no text, no bound value. -/
def queryWriter.zero : queryWriter := { buf := "", vs := [] }

/-- Modelled from the spec: `WriteString` appends a text fragment. -/
def queryWriter.WriteString (qw : queryWriter) (s : String) : queryWriter :=
  { qw with buf := qw.buf ++ s }

/-- Modelled from the spec: the positional placeholder of the `n`-th bound
value, `$n` (section 8 examples). -/
def placeholder (n : Nat) : String := "$" ++ toString n

/-- Modelled from the spec: binding a named value (section 4.1). The name is
looked up in the value map; when present the value is appended to the bound
values and the placeholder of its new position is written, when absent the
writer is left as it is and the missing-parameter error is returned. -/
def queryWriter.bind (qw : queryWriter) (vs : ValueMap) (name : String) :
    queryWriter × Option Error :=
  match vs.lookup name with
  | none => (qw, some (Error.missingParameter name))
  | some v =>
    ({ buf := qw.buf ++ placeholder (qw.vs.length + 1), vs := qw.vs ++ [v] }, none)

/-- Modelled from the spec: `String` returns the accumulated text. -/
def queryWriter.String (qw : queryWriter) : String := qw.buf

/-- Modelled from the spec: `PredicateClause` (section 4.3), a boolean
expression tree: comparison leaves referencing a column and the name of a
value, and the combinators AND, OR, NOT holding child clauses. The interface
and its implementations are declared outside the visible source. -/
inductive PredicateClause where
  | comparison (column : String) (op : String) (name : String)
  | and (l r : PredicateClause)
  | or (l r : PredicateClause)
  | not (c : PredicateClause)
  deriving DecidableEq, Repr

/-- Whether a clause contains a combinator, i.e. is not a leaf. -/
def PredicateClause.isCombinator : PredicateClause → Bool
  | .comparison _ _ _ => false
  | _ => true

/-- The parameter names a clause references, left to right. -/
def PredicateClause.names : PredicateClause → List String
  | .comparison _ _ name => [name]
  | .and l r => l.names ++ r.names
  | .or l r => l.names ++ r.names
  | .not c => c.names

/-- Modelled from the spec: a nested boolean sub-expression is wrapped in
parentheses whenever it contains a combinator (section 4.3). `w` is the
serialization of the child, `nested` tells whether it contains a combinator. -/
def writeNested (nested : Bool) (w : queryWriter → queryWriter × Option Error)
    (qw : queryWriter) : queryWriter × Option Error :=
  if nested then
    match w (qw.WriteString "(") with
    | (qw1, some e) => (qw1, some e)
    | (qw1, none) => (qw1.WriteString ")", none)
  else w qw

/-- Modelled from the spec: `PredicateClause.WriteTo` (section 4.3). A leaf
writes `column op ` and binds its name; a combinator writes its children in
order, each nested child that contains a combinator wrapped in parentheses,
and stops at the first child that fails, returning that error. The writer
returned with an error holds the text written before the failure. -/
def PredicateClause.WriteTo : PredicateClause → queryWriter → ValueMap →
    queryWriter × Option Error
  | .comparison column op name, qw, vs =>
    (qw.WriteString (column ++ " " ++ op ++ " ")).bind vs name
  | .and l r, qw, vs =>
    match writeNested l.isCombinator (fun q => l.WriteTo q vs) qw with
    | (qw1, some e) => (qw1, some e)
    | (qw1, none) =>
      writeNested r.isCombinator (fun q => r.WriteTo q vs) (qw1.WriteString " AND ")
  | .or l r, qw, vs =>
    match writeNested l.isCombinator (fun q => l.WriteTo q vs) qw with
    | (qw1, some e) => (qw1, some e)
    | (qw1, none) =>
      writeNested r.isCombinator (fun q => r.WriteTo q vs) (qw1.WriteString " OR ")
  | .not c, qw, vs =>
    writeNested c.isCombinator (fun q => c.WriteTo q vs) (qw.WriteString "NOT ")

/-- Modelled from the spec: `PredicateClause.Clone`, a structural deep copy
(section 4.3): every combinator clones its children, a leaf is copied by
value. -/
def PredicateClause.Clone : PredicateClause → PredicateClause
  | .comparison column op name => .comparison column op name
  | .and l r => .and l.Clone r.Clone
  | .or l r => .or l.Clone r.Clone
  | .not c => .not c.Clone

/-- Modelled from the spec: `clonePredicateClause`, the helper
`SelectStatement.Clone` applies to its optional predicates; the clone of a
`nil` clause is `nil` (section 4.3). Its declaration is not in the visible
source. -/
def clonePredicateClause : Option PredicateClause → Option PredicateClause
  | none => none
  | some pc => some pc.Clone

/-- The type `NullableInt`. Go's `int` is modelled as an unbounded integer: the
builder only prints it. -/
structure NullableInt where
  Int : Int
  Valid : Bool
  deriving DecidableEq, Repr

/-- The text `%d` prints for an integer: decimal digits, `-` before a
negative number. -/
def fmtInt (n : Int) : String := toString n

/-- Whether a string holds ASCII characters only. -/
def isASCII (s : String) : Bool := s.data.all fun c => c.toNat < 128

/-- The uppercase of an ASCII string: the letters `a` to `z` become `A` to
`Z`, every other character stays. `strings.ToUpper` itself belongs to the Go
standard library and maps letters of every script; it is the parameter
`upper` of `JoinClause.WriteTo` and of every definition that calls it, and
`asciiUpper` is what it computes on a string of ASCII characters. -/
def asciiUpper (s : String) : String := String.mk (s.data.map Char.toUpper)

/-- The type `JoinClause`; `Type_` is the field `Type` (a `JoinType`, i.e. a
string), `WhereClause` the optional predicate. -/
structure JoinClause where
  Table : String
  Type_ : String
  WhereClause : Option PredicateClause
  deriving DecidableEq, Repr

/-- The constant `DefaultJoin`. -/
def DefaultJoin : String := ""

/-- The constant `InnerJoin`. -/
def InnerJoin : String := "INNER"

/-- The constant `OuterJoin`. -/
def OuterJoin : String := "OUTER"

/-- `JoinClause.WriteTo`: writes ` <KIND> JOIN <table>`; with no predicate it
returns the `nil` error, otherwise it writes ` ON ` and returns what the
predicate's serialization returns. `upper` is `strings.ToUpper`. -/
def JoinClause.WriteTo (upper : String → String) (jc : JoinClause) (w : queryWriter)
    (vs : ValueMap) : queryWriter × Option Error :=
  let w := w.WriteString (" " ++ upper jc.Type_ ++ " JOIN " ++ jc.Table)
  match jc.WhereClause with
  | none => (w, none)
  | some wc => wc.WriteTo (w.WriteString " ON ") vs

/-- The loop of `cloneJoinClauses`: each element is rebuilt from the table,
the kind and `jc.WhereClause.Clone()`. The method call is made on the
interface value itself, so it panics on a `nil` predicate. -/
def cloneJoinClausesLoop : List JoinClause → Run (List JoinClause)
  | [] => Run.ret []
  | jc :: rest =>
    match jc.WhereClause with
    | none => Run.panic
    | some wc =>
      match cloneJoinClausesLoop rest with
      | Run.panic => Run.panic
      | Run.ret res =>
        Run.ret ({ Table := jc.Table, Type_ := jc.Type_, WhereClause := some wc.Clone } :: res)

/-- `cloneJoinClauses`: `nil` for an empty list, otherwise the list filled by
the loop. -/
def cloneJoinClauses (jcs : List JoinClause) : Run (List JoinClause) :=
  if jcs.length = 0 then Run.ret [] else cloneJoinClausesLoop jcs

/-- The type `SelectStatement`. -/
structure SelectStatement where
  Table : String
  JoinClauses : List JoinClause
  SelectClauses : List Marker
  WhereClause : Option PredicateClause
  GroupByClause : List Marker
  HavingClause : Option PredicateClause
  Offset : NullableInt
  Limit : NullableInt
  deriving DecidableEq, Repr

/-- `SelectStatement.Clone`: the fields of the composite literal are computed
in order; a panic of `cloneJoinClauses` is the outcome of the call. -/
def SelectStatement.Clone (ss : SelectStatement) : Run SelectStatement :=
  match cloneJoinClauses ss.JoinClauses with
  | Run.panic => Run.panic
  | Run.ret jcs =>
    Run.ret
      { Table := ss.Table
        JoinClauses := jcs
        SelectClauses := cloneMarkers ss.SelectClauses
        WhereClause := clonePredicateClause ss.WhereClause
        GroupByClause := cloneMarkers ss.GroupByClause
        HavingClause := clonePredicateClause ss.HavingClause
        Offset := ss.Offset
        Limit := ss.Limit }

/-- The loop over `ss.SelectClauses` of `buildQuery`: `n` is
`len(ss.SelectClauses)`, `i` the index of the head of the remaining list. It
writes each marker's fragment, `", "` when `i < n - 1`, and appends the
marker's binding name. -/
def selectLoop (n : Nat) : Nat → List Marker → queryWriter × List String →
    queryWriter × List String
  | _, [], st => st
  | i, c :: cs, (qw, bindings) =>
    let qw := qw.WriteString c.ToSQL
    let qw := if i < n - 1 then qw.WriteString ", " else qw
    selectLoop n (i + 1) cs (qw, bindings ++ [c.Binding])

/-- The loop over `ss.JoinClauses` of `buildQuery`: each join is written in
list order and the error `jc.WriteTo` returns is dropped. -/
def joinLoop (upper : String → String) (vs : ValueMap) :
    List JoinClause → queryWriter → queryWriter
  | [], qw => qw
  | jc :: rest, qw => joinLoop upper vs rest (jc.WriteTo upper qw vs).1

/-- The loop over `ss.GroupByClause` of `buildQuery`: as `selectLoop`, without
collecting binding names. -/
def groupByLoop (n : Nat) : Nat → List Marker → queryWriter → queryWriter
  | _, [], qw => qw
  | i, c :: cs, qw =>
    let qw := qw.WriteString c.ToSQL
    let qw := if i < n - 1 then qw.WriteString ", " else qw
    groupByLoop n (i + 1) cs qw

/-- The result of `SelectStatement.buildQuery`: SQL text, bound values,
bindings, error. -/
abbrev SelectResult := String × List Value × List String × Option Error

/-- The part of `SelectStatement.buildQuery` after the where clause: group-by
list, having clause, limit and offset, and the final return. -/
def SelectStatement.buildTail (ss : SelectStatement) (vs : ValueMap) (qw : queryWriter)
    (bindings : List String) : SelectResult :=
  let qw :=
    if ss.GroupByClause.length > 0 then
      groupByLoop ss.GroupByClause.length 0 ss.GroupByClause (qw.WriteString " GROUP BY ")
    else qw
  let having : queryWriter × Option Error :=
    match ss.HavingClause with
    | none => (qw, none)
    | some hc => hc.WriteTo (qw.WriteString " HAVING ") vs
  match having with
  | (_, some err) => ("", [], [], some err)
  | (qw, none) =>
    let qw := if ss.Limit.Valid then qw.WriteString (" LIMIT " ++ fmtInt ss.Limit.Int) else qw
    let qw := if ss.Offset.Valid then qw.WriteString (" OFFSET " ++ fmtInt ss.Offset.Int) else qw
    (qw.String, qw.vs, bindings, none)

/-- `SelectStatement.buildQuery`; `upper` is the `strings.ToUpper` that
`JoinClause.WriteTo` calls. -/
def SelectStatement.buildQuery (upper : String → String) (ss : SelectStatement)
    (vs : ValueMap) : SelectResult :=
  if ss.SelectClauses.length = 0 then ("", [], [], some errNoMarkers)
  else
    let qw := queryWriter.zero.WriteString "SELECT "
    let (qw, bindings) :=
      selectLoop ss.SelectClauses.length 0 ss.SelectClauses (qw, [])
    let qw := qw.WriteString " FROM "
    let qw := qw.WriteString ss.Table
    let qw := joinLoop upper vs ss.JoinClauses qw
    let wher : queryWriter × Option Error :=
      match ss.WhereClause with
      | none => (qw, none)
      | some wc => wc.WriteTo (qw.WriteString " WHERE ") vs
    match wher with
    | (_, some err) => ("", [], [], some err)
    | (qw, none) => ss.buildTail vs qw bindings

/-- The type `DeleteStatement`. -/
structure DeleteStatement where
  Table : String
  WhereClause : Option PredicateClause
  deriving DecidableEq, Repr

/-- The result of `DeleteStatement.buildQuery`: SQL text, bound values,
error. -/
abbrev DeleteResult := String × List Value × Option Error

/-- `DeleteStatement.buildQuery`. The prefix is written first; the method
`WriteTo` is then called on `ds.WhereClause` without a `nil` check, which
panics when the predicate is absent. -/
def DeleteStatement.buildQuery (ds : DeleteStatement) (vs : ValueMap) : Run DeleteResult :=
  let qw := queryWriter.zero.WriteString ("DELETE FROM " ++ ds.Table ++ " WHERE ")
  match ds.WhereClause with
  | none => Run.panic
  | some wc =>
    match wc.WriteTo qw vs with
    | (_, some err) => Run.ret ("", [], some err)
    | (qw, none) => Run.ret (qw.String, qw.vs, none)

/-- The error a predicate's serialization ends with: the missing-parameter
error of the first referenced name that is absent from the value map, no error
when every referenced name is present. -/
def PredicateClause.firstError (pc : PredicateClause) (vs : ValueMap) : Option Error :=
  (pc.names.find? fun n => (vs.lookup n).isNone).map Error.missingParameter

/-- The error an optional predicate's serialization ends with; an absent
predicate is not serialized. -/
def optFirstError : Option PredicateClause → ValueMap → Option Error
  | none, _ => none
  | some pc, vs => pc.firstError vs

/-- The parameter names an optional predicate references. -/
def optNames : Option PredicateClause → List String
  | none => []
  | some pc => pc.names

/-- The parameter names the join predicates reference, in list order. -/
def joinNames : List JoinClause → List String
  | [] => []
  | jc :: rest => optNames jc.WhereClause ++ joinNames rest

/-- The parameter names referenced by the predicates of a select statement:
join predicates, where, having. -/
def SelectStatement.names (ss : SelectStatement) : List String :=
  joinNames ss.JoinClauses ++ optNames ss.WhereClause ++ optNames ss.HavingClause

/-! ## Auxiliary definitions: the steps of `SelectStatement.buildQuery` -/

/-- The writer with the text `p` put in front of its text. -/
def prepend (p : String) (qw : queryWriter) : queryWriter :=
  { buf := p ++ qw.buf, vs := qw.vs }

/-- The writer of `buildQuery` once `SELECT`, the markers, `FROM`, the table
and the joins are written (lines 50 to 67). -/
def SelectStatement.headWriter (upper : String → String) (ss : SelectStatement)
    (vs : ValueMap) : queryWriter :=
  joinLoop upper vs ss.JoinClauses
    (((selectLoop ss.SelectClauses.length 0 ss.SelectClauses
      (queryWriter.zero.WriteString "SELECT ", [])).1.WriteString " FROM ").WriteString ss.Table)

/-- The where step of `buildQuery` (lines 69 to 75): the writer and the error
after it. -/
def SelectStatement.whereStep (upper : String → String) (ss : SelectStatement)
    (vs : ValueMap) : queryWriter × Option Error :=
  match ss.WhereClause with
  | none => (ss.headWriter upper vs, none)
  | some wc => wc.WriteTo ((ss.headWriter upper vs).WriteString " WHERE ") vs

/-- The writer of `buildQuery` after the group-by list (lines 77 to 87),
from the writer `qw` the where step left. -/
def SelectStatement.groupWriter (ss : SelectStatement) (qw : queryWriter) : queryWriter :=
  if ss.GroupByClause.length > 0 then
    groupByLoop ss.GroupByClause.length 0 ss.GroupByClause (qw.WriteString " GROUP BY ")
  else qw

/-- The having step of `buildQuery` (lines 89 to 95), from the writer `qw`
the where step left. -/
def SelectStatement.havingStep (ss : SelectStatement) (vs : ValueMap) (qw : queryWriter) :
    queryWriter × Option Error :=
  match ss.HavingClause with
  | none => (ss.groupWriter qw, none)
  | some hc => hc.WriteTo ((ss.groupWriter qw).WriteString " HAVING ") vs

/-- The limit and offset step of `buildQuery` (lines 97 to 103). -/
def SelectStatement.limitOffset (ss : SelectStatement) (qw : queryWriter) : queryWriter :=
  let qw := if ss.Limit.Valid then qw.WriteString (" LIMIT " ++ fmtInt ss.Limit.Int) else qw
  if ss.Offset.Valid then qw.WriteString (" OFFSET " ++ fmtInt ss.Offset.Int) else qw

/-- The writer a successful build returns the text and values of. -/
def SelectStatement.finalWriter (upper : String → String) (ss : SelectStatement)
    (vs : ValueMap) : queryWriter :=
  ss.limitOffset (ss.havingStep vs (ss.whereStep upper vs).1).1

/-- The values a predicate binds when it is serialized into a fresh writer,
in the order it requests them; none for an absent predicate. For a predicate
that fails, these are the values bound before the failure. -/
def optBound (o : Option PredicateClause) (vs : ValueMap) : List Value :=
  match o with
  | none => []
  | some pc => (pc.WriteTo queryWriter.zero vs).1.vs

/-- The values bound by the predicates of a join list, in list order. -/
def joinBound (vs : ValueMap) : List JoinClause → List Value
  | [] => []
  | jc :: rest => optBound jc.WhereClause vs ++ joinBound vs rest

/-- The fragments of a marker list in list order, separated by `", "`, with
no trailing separator. -/
def markerList (ms : List Marker) : String := ", ".intercalate (ms.map Marker.ToSQL)

/-- The text `SELECT <markers> FROM <table>`. -/
def SelectStatement.headText (ss : SelectStatement) : String :=
  "SELECT " ++ markerList ss.SelectClauses ++ " FROM " ++ ss.Table

/-- The text the joins write, in list order, into a fresh writer. -/
def SelectStatement.joinsText (upper : String → String) (ss : SelectStatement)
    (vs : ValueMap) : String :=
  (joinLoop upper vs ss.JoinClauses queryWriter.zero).buf

/-- The text of the where clause: `" WHERE "` and the serialization of the
predicate, numbered after the values the joins bound; empty when absent. -/
def SelectStatement.whereText (ss : SelectStatement) (vs : ValueMap) : String :=
  match ss.WhereClause with
  | none => ""
  | some wc => " WHERE " ++ (wc.WriteTo ⟨"", joinBound vs ss.JoinClauses⟩ vs).1.buf

/-- The text of the group-by list: empty for an empty list, otherwise
`" GROUP BY "` and the separated fragments. -/
def SelectStatement.groupText (ss : SelectStatement) : String :=
  if ss.GroupByClause.length > 0 then " GROUP BY " ++ markerList ss.GroupByClause else ""

/-- The text of the having clause: `" HAVING "` and the serialization of the
predicate, numbered after the values the joins and the where predicate bound;
empty when absent. -/
def SelectStatement.havingText (ss : SelectStatement) (vs : ValueMap) : String :=
  match ss.HavingClause with
  | none => ""
  | some hc =>
    " HAVING " ++
      (hc.WriteTo ⟨"", joinBound vs ss.JoinClauses ++ optBound ss.WhereClause vs⟩ vs).1.buf

/-- The text of limit and offset. -/
def SelectStatement.limitText (ss : SelectStatement) : String :=
  (if ss.Limit.Valid then " LIMIT " ++ fmtInt ss.Limit.Int else "") ++
    (if ss.Offset.Valid then " OFFSET " ++ fmtInt ss.Offset.Int else "")

/-! ## Examples used below -/

/-- The select of the spec's example: table `users`, marker `id`, where
`age > :minAge`. -/
def exampleSelect : SelectStatement :=
  { Table := "users"
    JoinClauses := []
    SelectClauses := [{ sql := "id", binding := "id" }]
    WhereClause := some (.comparison "age" ">" "minAge")
    GroupByClause := []
    HavingClause := none
    Offset := { Int := 0, Valid := false }
    Limit := { Int := 0, Valid := false } }

/-- A select with no select marker whose where and having predicates cannot
be resolved against the empty value map. -/
def exampleNoMarkers : SelectStatement :=
  { Table := "users"
    JoinClauses := [{ Table := "orders", Type_ := InnerJoin,
                      WhereClause := some (.comparison "orders.user_id" "=" "uid") }]
    SelectClauses := []
    WhereClause := some (.comparison "age" ">" "minAge")
    GroupByClause := [{ sql := "age", binding := "age" }]
    HavingClause := some (.comparison "count(*)" ">" "minCount")
    Offset := { Int := 5, Valid := true }
    Limit := { Int := 10, Valid := true } }

/-- A select with two select markers, a join with a predicate, where,
group-by and having. -/
def exampleFull : SelectStatement :=
  { Table := "users"
    JoinClauses := [{ Table := "orders", Type_ := InnerJoin,
                      WhereClause := some (.comparison "orders.user_id" "=" "uid") }]
    SelectClauses := [{ sql := "users.id", binding := "id" },
                      { sql := "count(*)", binding := "n" }]
    WhereClause := some (.and (.comparison "age" ">" "minAge")
                              (.or (.comparison "city" "=" "c1") (.comparison "city" "=" "c2")))
    GroupByClause := [{ sql := "users.id", binding := "gid" }]
    HavingClause := some (.comparison "count(*)" ">" "minCount")
    Offset := { Int := 0, Valid := false }
    Limit := { Int := 0, Valid := false } }

/-- The outer join of the spec's example: table `orders`, no predicate. -/
def exampleOuterJoin : JoinClause :=
  { Table := "orders", Type_ := "outer", WhereClause := none }

/-- An inner join on `orders` with the predicate `orders.user_id = :uid`. -/
def exampleInnerJoin : JoinClause :=
  { Table := "orders", Type_ := InnerJoin,
    WhereClause := some (.comparison "orders.user_id" "=" "uid") }

/-- A select with one marker and an inner join whose predicate references
the name `uid`; it has no where and no having predicate. -/
def exampleJoinFail : SelectStatement :=
  { Table := "users"
    JoinClauses := [exampleInnerJoin]
    SelectClauses := [{ sql := "id", binding := "id" }]
    WhereClause := none
    GroupByClause := []
    HavingClause := none
    Offset := { Int := 0, Valid := false }
    Limit := { Int := 0, Valid := false } }

/-- A select whose where predicate resolves against `minAge` alone and whose
having predicate references `minCount`. -/
def exampleHaving : SelectStatement :=
  { Table := "users"
    JoinClauses := []
    SelectClauses := [{ sql := "city", binding := "city" }]
    WhereClause := some (.comparison "age" ">" "minAge")
    GroupByClause := [{ sql := "city", binding := "city" }]
    HavingClause := some (.comparison "count(*)" ">" "minCount")
    Offset := { Int := 0, Valid := false }
    Limit := { Int := 0, Valid := false } }

/-- The delete of the spec's example: table `sessions`, where
`expired = :flag`. -/
def exampleDelete : DeleteStatement :=
  { Table := "sessions", WhereClause := some (.comparison "expired" "=" "flag") }

/-- A delete whose predicate binds `flag` before it references `age`. -/
def exampleDeleteTwo : DeleteStatement :=
  { Table := "sessions"
    WhereClause := some (.and (.comparison "expired" "=" "flag") (.comparison "age" ">" "age")) }

/-- A delete with no where predicate. -/
def exampleDeleteAll : DeleteStatement :=
  { Table := "sessions", WhereClause := none }

/-- A select on `users` with the predicate-free join `exampleOuterJoin`. -/
def exampleSelectOuter : SelectStatement :=
  { Table := "users"
    JoinClauses := [exampleOuterJoin]
    SelectClauses := [{ sql := "id", binding := "id" }]
    WhereClause := none
    GroupByClause := []
    HavingClause := none
    Offset := { Int := 0, Valid := false }
    Limit := { Int := 0, Valid := false } }

/-- The select `exampleSelect` with `Limit{10, true}` and an invalid offset
whose `Int` is 7. -/
def exampleLimit : SelectStatement :=
  { exampleSelect with Limit := { Int := 10, Valid := true }, Offset := { Int := 7, Valid := false } }

/-- A select on `users` with the markers `id` and `name` and nothing else. -/
def examplePlain : SelectStatement :=
  { Table := "users"
    JoinClauses := []
    SelectClauses := [{ sql := "id", binding := "id" }, { sql := "name", binding := "name" }]
    WhereClause := none
    GroupByClause := []
    HavingClause := none
    Offset := { Int := 0, Valid := false }
    Limit := { Int := 0, Valid := false } }

/-- A value map that resolves every name `exampleFull` references. -/
def exampleFullValues : ValueMap :=
  [("uid", Value.int 7), ("minAge", Value.int 18), ("c1", Value.text "Paris"),
   ("c2", Value.text "Lyon"), ("minCount", Value.int 2)]

end sqlbuilder

/-! # Connection configuration (`backend/postgres`)

The embedding of `Config.host`, `Config.port`, `Config.userInfo`, `writeCert`,
`Config.sslValues` and `Config.DSN` (config.go). `Config` methods have a
pointer receiver and `sslValues` may assign `CACertFile` and `certErr`, so the
configuration is returned next to the result. The outcomes of the file
operations of `writeCert` and the standard library functions `url.URL.String`
and `url.Values.Encode` are parameters. -/

namespace postgres

/-- The constant `Master`. -/
def Master : String := "master"

/-- The constant `Replica`. -/
def Replica : String := "replica"

/-- The constant `Disable`. -/
def Disable : String := "disable"

/-- The constant `Allow`. -/
def Allow : String := "allow"

/-- The constant `Prefer`. -/
def Prefer : String := "prefer"

/-- The constant `Require`. -/
def Require : String := "require"

/-- The constant `VerifyCA`. -/
def VerifyCA : String := "verify-ca"

/-- The constant `VerifyFull`. -/
def VerifyFull : String := "verify-full"

/-- An error of a file operation. -/
structure FileError where
  msg : String
  deriving DecidableEq, Repr

/-- The type `x509.Certificate`, of which `writeCert` reads the field `Raw`. -/
structure Certificate where
  Raw : List Nat
  deriving DecidableEq, Repr

/-- The outcomes of the file operations `writeCert` performs: the name and
error of `ioutil.TempFile`, the error of `pem.Encode`, the error of
`f.Close`. -/
structure FileOps where
  tempName : String
  tempErr : Option FileError
  encodeErr : Option FileError
  closeErr : Option FileError
  deriving DecidableEq, Repr

/-- The type `url.Userinfo`: user name, password and whether a password is
set. -/
structure Userinfo where
  username : String
  password : String
  passwordSet : Bool
  deriving DecidableEq, Repr

/-- The function `url.User`. -/
def urlUser (username : String) : Userinfo :=
  { username := username, password := "", passwordSet := false }

/-- The function `url.UserPassword`. -/
def urlUserPassword (username password : String) : Userinfo :=
  { username := username, password := password, passwordSet := true }

/-- The type `url.Values`, a map from key to values, as an association list
with one entry per key. -/
abbrev Values := List (String × List String)

/-- The map assignment `vs[k] = v`. -/
def Values.set : Values → String → List String → Values
  | [], k, v => [(k, v)]
  | (k1, v1) :: rest, k, v =>
    if k1 = k then (k, v) :: rest else (k1, v1) :: Values.set rest k v

/-- The fields of `url.URL` that `DSN` fills. -/
structure URL where
  Scheme : String
  User : Option Userinfo
  Host : String
  Path : String
  RawQuery : String
  deriving DecidableEq, Repr

/-- The type `Config`. `Port` is a Go `int`, modelled as an unbounded integer;
`CACert` is the optional certificate pointer; `certOnce` tells whether the
`sync.Once` has run. -/
structure Config where
  Host : String
  Port : Int
  DBName : String
  User : String
  Password : String
  SSLMode : String
  CACertFile : String
  CACert : Option Certificate
  Role : String
  certOnce : Bool
  certErr : Option FileError
  deriving DecidableEq, Repr

/-- The text `%d` prints for an integer. -/
def fmtInt (n : Int) : String := toString n

/-- `Config.Driver`. -/
def Config.Driver (_c : Config) : String := "postgres"

/-- `Config.IsMaster`. -/
def Config.IsMaster (c : Config) : Bool := c.Role != Replica

/-- `Config.host`. -/
def Config.host (c : Config) : String :=
  if c.Host = "" then "localhost" else c.Host

/-- `Config.port`. -/
def Config.port (c : Config) : Int :=
  if c.Port = 0 then 5432 else c.Port

/-- `Config.userInfo`; `none` is the `nil` pointer. -/
def Config.userInfo (c : Config) : Option Userinfo :=
  if c.User = "" ∧ c.Password = "" then none
  else if c.Password = "" then some (urlUser c.User)
  else some (urlUserPassword c.User c.Password)

/-- `writeCert`, on the outcomes `ops` of its file operations: the error of
`TempFile`, then the error of `pem.Encode`, otherwise the file name and the
error of `Close`. -/
def writeCert (ops : FileOps) (_cert : Certificate) : String × Option FileError :=
  match ops.tempErr with
  | some err => ("", some err)
  | none =>
    match ops.encodeErr with
    | some err => ("", some err)
    | none => (ops.tempName, ops.closeErr)

/-- The first block of `sslValues`: when `CACertFile` is empty and `CACert` is
set, `certOnce.Do` runs `writeCert` once and stores its results; the block
then returns `certErr` when it is not `nil`. The result is the configuration
after the block and the error the block returns with, if any. -/
def Config.certBlock (ops : FileOps) (c : Config) : Config × Option FileError :=
  if c.CACertFile = "" then
    match c.CACert with
    | none => (c, none)
    | some cert =>
      let c1 : Config :=
        if c.certOnce then c
        else
          { c with CACertFile := (writeCert ops cert).1, certErr := (writeCert ops cert).2,
                   certOnce := true }
      (c1, c1.certErr)
  else (c, none)

/-- `Config.sslValues`: the configuration after the call and the returned
pair of values and error. -/
def Config.sslValues (ops : FileOps) (c : Config) : Config × (Values × Option FileError) :=
  let mode := Disable
  match c.certBlock ops with
  | (c1, some err) => (c1, ([], some err))
  | (c1, none) =>
    let mode :=
      if c1.SSLMode ≠ "" then c1.SSLMode
      else if c1.CACertFile ≠ "" then VerifyCA
      else mode
    let vs : Values := [("sslmode", [mode])]
    let vs := if c1.CACertFile ≠ "" then Values.set vs "sslrootcert" [c1.CACertFile] else vs
    (c1, (vs, none))

/-- The `url.URL` value `DSN` builds from the configuration and the values
`q`; `encode` is `url.Values.Encode`. -/
def Config.dsnURL (encode : Values → String) (c : Config) (q : Values) : URL :=
  { Scheme := "postgres"
    User := c.userInfo
    Host := c.host ++ ":" ++ fmtInt c.port
    Path := "/" ++ c.DBName
    RawQuery := encode q }

/-- `Config.DSN`: the configuration after the call and the returned pair of
text and error; `urlString` is `url.URL.String`. -/
def Config.DSN (ops : FileOps) (encode : Values → String) (urlString : URL → String)
    (c : Config) : Config × (String × Option FileError) :=
  match c.sslValues ops with
  | (c1, (_, some err)) => (c1, ("", some err))
  | (c1, (q, none)) => (c1, (urlString (c1.dsnURL encode q), none))

/-- A configuration with nothing set. -/
def exampleEmpty : Config :=
  { Host := "", Port := 0, DBName := "", User := "", Password := "", SSLMode := "",
    CACertFile := "", CACert := none, Role := "", certOnce := false, certErr := none }

/-- A configuration with an explicit mode and a certificate file. -/
def exampleRequire : Config :=
  { exampleEmpty with Host := "db.internal", Port := 6432, DBName := "app", User := "svc",
                      SSLMode := Require, CACertFile := "/etc/ca.pem" }

/-- A configuration with a certificate file and no explicit mode. -/
def exampleCAFile : Config :=
  { exampleEmpty with CACertFile := "/etc/ca.pem", Password := "secret" }

/-- File operations that all succeed. -/
def exampleOps : FileOps :=
  { tempName := "/tmp/cert1", tempErr := none, encodeErr := none, closeErr := none }

end postgres

namespace sqlbuilder

/-! ## The predicate serialization: general facts -/

theorem prepend_WriteString (p s : String) (qw : queryWriter) :
    (prepend p qw).WriteString s = prepend p (qw.WriteString s) := by
  simp [prepend, queryWriter.WriteString, String.append_assoc]

theorem bind_prepend (p : String) (qw : queryWriter) (vs : ValueMap) (name : String) :
    (prepend p qw).bind vs name = (prepend p (qw.bind vs name).1, (qw.bind vs name).2) := by
  unfold queryWriter.bind
  cases vs.lookup name <;> simp [prepend, String.append_assoc]

theorem writeNested_prepend (p : String) (nested : Bool)
    (w : queryWriter → queryWriter × Option Error)
    (hw : ∀ q, w (prepend p q) = (prepend p (w q).1, (w q).2)) (qw : queryWriter) :
    writeNested nested w (prepend p qw) =
      (prepend p (writeNested nested w qw).1, (writeNested nested w qw).2) := by
  unfold writeNested
  cases nested
  · simp [hw]
  · simp only [if_true, prepend_WriteString, hw]
    rcases h : w (qw.WriteString "(") with ⟨q1, _ | e⟩ <;> simp [prepend_WriteString]

/-- Serializing into a writer that already holds the text `p` in front gives
the same result with `p` in front: a predicate only appends. -/
theorem WriteTo_prepend (pc : PredicateClause) (p : String) (vs : ValueMap) :
    ∀ qw : queryWriter, pc.WriteTo (prepend p qw) vs =
      (prepend p (pc.WriteTo qw vs).1, (pc.WriteTo qw vs).2) := by
  induction pc with
  | comparison column op name =>
    intro qw
    simp only [PredicateClause.WriteTo, prepend_WriteString, bind_prepend]
  | and l r ihl ihr =>
    intro qw
    simp only [PredicateClause.WriteTo]
    rw [writeNested_prepend p _ _ ihl]
    rcases h : writeNested l.isCombinator (fun q => l.WriteTo q vs) qw with ⟨q1, _ | e⟩
    · simp only [prepend_WriteString]
      rw [writeNested_prepend p _ _ ihr]
    · simp
  | or l r ihl ihr =>
    intro qw
    simp only [PredicateClause.WriteTo]
    rw [writeNested_prepend p _ _ ihl]
    rcases h : writeNested l.isCombinator (fun q => l.WriteTo q vs) qw with ⟨q1, _ | e⟩
    · simp only [prepend_WriteString]
      rw [writeNested_prepend p _ _ ihr]
    · simp
  | not c ih =>
    intro qw
    simp only [PredicateClause.WriteTo, prepend_WriteString]
    rw [writeNested_prepend p _ _ ih]

/-- The error of a nested serialization is the error of the child at the
writer it is given. -/
theorem writeNested_error (nested : Bool) (w : queryWriter → queryWriter × Option Error)
    (qw : queryWriter) :
    (writeNested nested w qw).2 = (w (if nested then qw.WriteString "(" else qw)).2 := by
  unfold writeNested
  cases nested
  · simp
  · simp only [if_true]
    rcases h : w (qw.WriteString "(") with ⟨q1, _ | e⟩ <;> simp

/-- The bound values of a nested serialization are those of the child. -/
theorem writeNested_vs (nested : Bool) (w : queryWriter → queryWriter × Option Error)
    (qw : queryWriter) :
    (writeNested nested w qw).1.vs = (w (if nested then qw.WriteString "(" else qw)).1.vs := by
  unfold writeNested
  cases nested
  · simp
  · simp only [if_true]
    rcases h : w (qw.WriteString "(") with ⟨q1, _ | e⟩ <;> simp [queryWriter.WriteString]

/-- The error and the values a predicate binds depend on the values already
bound, not on the text already written. -/
theorem WriteTo_text_irrelevant (pc : PredicateClause) (vs : ValueMap) :
    ∀ qw qw2 : queryWriter, qw.vs = qw2.vs →
      (pc.WriteTo qw vs).2 = (pc.WriteTo qw2 vs).2 ∧
      (pc.WriteTo qw vs).1.vs = (pc.WriteTo qw2 vs).1.vs := by
  induction pc with
  | comparison column op name =>
    intro qw qw2 h
    simp only [PredicateClause.WriteTo, queryWriter.bind, queryWriter.WriteString]
    cases vs.lookup name <;> simp [h]
  | and l r ihl ihr =>
    intro qw qw2 h
    simp only [PredicateClause.WriteTo]
    have hl := ihl (if l.isCombinator then qw.WriteString "(" else qw)
      (if l.isCombinator then qw2.WriteString "(" else qw2)
      (by cases l.isCombinator <;> simp [queryWriter.WriteString, h])
    have e1 := writeNested_error l.isCombinator (fun q => l.WriteTo q vs) qw
    have e2 := writeNested_error l.isCombinator (fun q => l.WriteTo q vs) qw2
    have v1 := writeNested_vs l.isCombinator (fun q => l.WriteTo q vs) qw
    have v2 := writeNested_vs l.isCombinator (fun q => l.WriteTo q vs) qw2
    rcases h1 : writeNested l.isCombinator (fun q => l.WriteTo q vs) qw with ⟨q1, _ | e⟩ <;>
    rcases h2 : writeNested l.isCombinator (fun q => l.WriteTo q vs) qw2 with ⟨q2, _ | e'⟩ <;>
    simp only [h1, h2] at e1 e2 v1 v2 <;>
    simp only [← e1, ← e2, ← v1, ← v2] at hl
    · have hr := ihr
        (if r.isCombinator then (q1.WriteString " AND ").WriteString "(" else q1.WriteString " AND ")
        (if r.isCombinator then (q2.WriteString " AND ").WriteString "(" else q2.WriteString " AND ")
        (by cases r.isCombinator <;> simp [queryWriter.WriteString, hl.2])
      simp only [writeNested_error, writeNested_vs]
      exact hr
    · exact absurd hl.1 (by simp)
    · exact absurd hl.1 (by simp)
    · exact hl
  | or l r ihl ihr =>
    intro qw qw2 h
    simp only [PredicateClause.WriteTo]
    have hl := ihl (if l.isCombinator then qw.WriteString "(" else qw)
      (if l.isCombinator then qw2.WriteString "(" else qw2)
      (by cases l.isCombinator <;> simp [queryWriter.WriteString, h])
    have e1 := writeNested_error l.isCombinator (fun q => l.WriteTo q vs) qw
    have e2 := writeNested_error l.isCombinator (fun q => l.WriteTo q vs) qw2
    have v1 := writeNested_vs l.isCombinator (fun q => l.WriteTo q vs) qw
    have v2 := writeNested_vs l.isCombinator (fun q => l.WriteTo q vs) qw2
    rcases h1 : writeNested l.isCombinator (fun q => l.WriteTo q vs) qw with ⟨q1, _ | e⟩ <;>
    rcases h2 : writeNested l.isCombinator (fun q => l.WriteTo q vs) qw2 with ⟨q2, _ | e'⟩ <;>
    simp only [h1, h2] at e1 e2 v1 v2 <;>
    simp only [← e1, ← e2, ← v1, ← v2] at hl
    · have hr := ihr
        (if r.isCombinator then (q1.WriteString " OR ").WriteString "(" else q1.WriteString " OR ")
        (if r.isCombinator then (q2.WriteString " OR ").WriteString "(" else q2.WriteString " OR ")
        (by cases r.isCombinator <;> simp [queryWriter.WriteString, hl.2])
      simp only [writeNested_error, writeNested_vs]
      exact hr
    · exact absurd hl.1 (by simp)
    · exact absurd hl.1 (by simp)
    · exact hl
  | not c ih =>
    intro qw qw2 h
    simp only [PredicateClause.WriteTo, writeNested_error, writeNested_vs]
    exact ih _ _ (by cases c.isCombinator <;> simp [queryWriter.WriteString, h])

/-- A predicate whose referenced names are all in the value map serializes
without error, whatever the writer holds. -/
theorem WriteTo_ok (pc : PredicateClause) (vs : ValueMap)
    (h : ∀ n ∈ pc.names, (vs.lookup n).isSome = true) :
    ∀ qw : queryWriter, (pc.WriteTo qw vs).2 = none := by
  induction pc with
  | comparison column op name =>
    intro qw
    have hn := h name (by simp [PredicateClause.names])
    simp only [PredicateClause.WriteTo, queryWriter.bind]
    cases hl : vs.lookup name with
    | none => simp [hl] at hn
    | some v => rfl
  | and l r ihl ihr =>
    intro qw
    have hl := ihl (fun n hn => h n (by simp [PredicateClause.names, hn]))
    have hr := ihr (fun n hn => h n (by simp [PredicateClause.names, hn]))
    simp only [PredicateClause.WriteTo]
    have e1 := writeNested_error l.isCombinator (fun q => l.WriteTo q vs) qw
    rcases h1 : writeNested l.isCombinator (fun q => l.WriteTo q vs) qw with ⟨q1, _ | e⟩
    · simp only [writeNested_error, hr]
    · rw [h1] at e1
      simp [hl] at e1
  | or l r ihl ihr =>
    intro qw
    have hl := ihl (fun n hn => h n (by simp [PredicateClause.names, hn]))
    have hr := ihr (fun n hn => h n (by simp [PredicateClause.names, hn]))
    simp only [PredicateClause.WriteTo]
    have e1 := writeNested_error l.isCombinator (fun q => l.WriteTo q vs) qw
    rcases h1 : writeNested l.isCombinator (fun q => l.WriteTo q vs) qw with ⟨q1, _ | e⟩
    · simp only [writeNested_error, hr]
    · rw [h1] at e1
      simp [hl] at e1
  | not c ih =>
    intro qw
    have hc := ih (fun n hn => h n (by simp [PredicateClause.names, hn]))
    simp only [PredicateClause.WriteTo, writeNested_error, hc]

/-- The error of a predicate's serialization, on every writer, is the
missing-parameter error of its first unresolved name. -/
theorem WriteTo_error (pc : PredicateClause) (vs : ValueMap) :
    ∀ qw : queryWriter, (pc.WriteTo qw vs).2 = pc.firstError vs := by
  induction pc with
  | comparison column op name =>
    intro qw
    simp only [PredicateClause.WriteTo, queryWriter.bind, PredicateClause.firstError,
      PredicateClause.names]
    cases hl : vs.lookup name <;> simp [List.find?, hl]
  | and l r ihl ihr =>
    intro qw
    simp only [PredicateClause.firstError] at ihl ihr
    simp only [PredicateClause.WriteTo, PredicateClause.firstError, PredicateClause.names,
      List.find?_append]
    have e1 := writeNested_error l.isCombinator (fun q => l.WriteTo q vs) qw
    rw [ihl] at e1
    rcases h1 : writeNested l.isCombinator (fun q => l.WriteTo q vs) qw with ⟨q1, _ | e⟩ <;>
    rw [h1] at e1 <;> simp only at e1
    · simp only [writeNested_error, ihr]
      cases hf : l.names.find? fun n => (vs.lookup n).isNone with
      | none => simp
      | some x => simp [hf] at e1
    · cases hf : l.names.find? fun n => (vs.lookup n).isNone with
      | none => simp [hf] at e1
      | some x => simpa [hf] using e1
  | or l r ihl ihr =>
    intro qw
    simp only [PredicateClause.firstError] at ihl ihr
    simp only [PredicateClause.WriteTo, PredicateClause.firstError, PredicateClause.names,
      List.find?_append]
    have e1 := writeNested_error l.isCombinator (fun q => l.WriteTo q vs) qw
    rw [ihl] at e1
    rcases h1 : writeNested l.isCombinator (fun q => l.WriteTo q vs) qw with ⟨q1, _ | e⟩ <;>
    rw [h1] at e1 <;> simp only at e1
    · simp only [writeNested_error, ihr]
      cases hf : l.names.find? fun n => (vs.lookup n).isNone with
      | none => simp
      | some x => simp [hf] at e1
    · cases hf : l.names.find? fun n => (vs.lookup n).isNone with
      | none => simp [hf] at e1
      | some x => simpa [hf] using e1
  | not c ih =>
    intro qw
    simp only [PredicateClause.firstError] at ih
    simp only [PredicateClause.WriteTo, PredicateClause.firstError, PredicateClause.names,
      writeNested_error, ih]

/-- The error of a predicate is the same on every writer. -/
theorem WriteTo_error_eq (pc : PredicateClause) (vs : ValueMap) (qw qw2 : queryWriter) :
    (pc.WriteTo qw vs).2 = (pc.WriteTo qw2 vs).2 := by
  rw [WriteTo_error, WriteTo_error]

/-! ## The select loop -/

/-- The select loop collects the binding names of the markers in list
order, after those already collected. -/
theorem selectLoop_bindings (n : Nat) (cs : List Marker) :
    ∀ (i : Nat) (qw : queryWriter) (bs : List String),
      (selectLoop n i cs (qw, bs)).2 = bs ++ cs.map Marker.Binding := by
  induction cs with
  | nil => intro i qw bs; simp [selectLoop]
  | cons c cs ih => intro i qw bs; simp [selectLoop, ih]

/-! ## `SelectStatement.buildQuery` -/

/-- With no select marker the build stops at its first check. -/
theorem no_markers_build {upper : String → String} (ss : SelectStatement) (vs : ValueMap)
    (h : ss.SelectClauses = []) :
    ss.buildQuery upper vs = ("", [], [], some errNoMarkers) := by
  simp [SelectStatement.buildQuery, h]

/-- C1: a select statement whose `SelectClauses` list is empty builds, for
every value map and whatever its other fields hold, to the empty text, no
bound values, no bindings and the error `errNoMarkers`. -/
theorem buildQuery_no_markers (upper : String → String) (ss : SelectStatement) (vs : ValueMap)
    (h : ss.SelectClauses = []) :
    ss.buildQuery upper vs = ("", [], [], some errNoMarkers) :=
  no_markers_build ss vs h

/-- Witness of C1: a statement without markers whose predicates would all
fail to resolve. -/
theorem buildQuery_no_markers_witness :
    exampleNoMarkers.SelectClauses = [] ∧
    (PredicateClause.comparison "age" ">" "minAge").firstError [] =
      some (Error.missingParameter "minAge") ∧
    exampleNoMarkers.buildQuery asciiUpper [] = ("", [], [], some errNoMarkers) :=
  ⟨rfl, by decide, buildQuery_no_markers asciiUpper exampleNoMarkers [] rfl⟩

/-- The tail of the build in terms of its steps. -/
theorem buildTail_eq (ss : SelectStatement) (vs : ValueMap) (qw : queryWriter)
    (bs : List String) :
    ss.buildTail vs qw bs =
      match ss.havingStep vs qw with
      | (_, some err) => ("", [], [], some err)
      | (q, none) => ((ss.limitOffset q).String, (ss.limitOffset q).vs, bs, none) := by
  unfold SelectStatement.buildTail SelectStatement.havingStep SelectStatement.groupWriter
    SelectStatement.limitOffset
  rfl

/-- The build of a statement with a select marker in terms of its steps. -/
theorem buildQuery_eq {upper : String → String} (ss : SelectStatement) (vs : ValueMap) (hm : ss.SelectClauses ≠ []) :
    ss.buildQuery upper vs =
      match ss.whereStep upper vs with
      | (_, some err) => ("", [], [], some err)
      | (q, none) => ss.buildTail vs q (ss.SelectClauses.map Marker.Binding) := by
  have hlen : ss.SelectClauses.length ≠ 0 := by
    intro h0; exact hm (List.length_eq_zero.mp h0)
  have hb := selectLoop_bindings ss.SelectClauses.length ss.SelectClauses 0
    (queryWriter.zero.WriteString "SELECT ") []
  unfold SelectStatement.buildQuery SelectStatement.whereStep SelectStatement.headWriter
  simp only [hlen, if_false]
  rcases hs : selectLoop ss.SelectClauses.length 0 ss.SelectClauses
    (queryWriter.zero.WriteString "SELECT ", []) with ⟨q, bs⟩
  rw [hs] at hb
  simp only [List.nil_append] at hb
  subst hb
  rfl

theorem whereStep_error {upper : String → String} (ss : SelectStatement) (vs : ValueMap) :
    (ss.whereStep upper vs).2 = optFirstError ss.WhereClause vs := by
  unfold SelectStatement.whereStep
  cases ss.WhereClause with
  | none => rfl
  | some wc => simp only [WriteTo_error, optFirstError]

theorem havingStep_error (ss : SelectStatement) (vs : ValueMap) (qw : queryWriter) :
    (ss.havingStep vs qw).2 = optFirstError ss.HavingClause vs := by
  unfold SelectStatement.havingStep
  cases ss.HavingClause with
  | none => rfl
  | some hc => simp only [WriteTo_error, optFirstError]

/-- The result of the build of a statement with a select marker, by cases on
the errors of the where and having predicates. -/
theorem buildQuery_cases {upper : String → String} (ss : SelectStatement) (vs : ValueMap) (hm : ss.SelectClauses ≠ []) :
    ss.buildQuery upper vs =
      match optFirstError ss.WhereClause vs with
      | some e => ("", [], [], some e)
      | none =>
        match optFirstError ss.HavingClause vs with
        | some e => ("", [], [], some e)
        | none => ((ss.finalWriter upper vs).String, (ss.finalWriter upper vs).vs,
            ss.SelectClauses.map Marker.Binding, none) := by
  rw [buildQuery_eq ss vs hm]
  have hw := @whereStep_error upper ss vs
  rcases h1 : ss.whereStep upper vs with ⟨q1, _ | e1⟩ <;> rw [h1] at hw <;> simp only at hw <;>
    rw [← hw]
  simp only [buildTail_eq]
  have hh := havingStep_error ss vs q1
  rcases h2 : ss.havingStep vs q1 with ⟨q2, _ | e2⟩ <;> rw [h2] at hh <;> simp only at hh <;>
    rw [← hh]
  simp only [SelectStatement.finalWriter, h1, h2]

/-- A predicate whose referenced names are all in the value map has no
error. -/
theorem firstError_none_of_names (pc : PredicateClause) (vs : ValueMap)
    (h : ∀ n ∈ pc.names, (vs.lookup n).isSome = true) : pc.firstError vs = none := by
  rw [← WriteTo_error pc vs queryWriter.zero]
  exact WriteTo_ok pc vs h queryWriter.zero

theorem optFirstError_none_of_names (o : Option PredicateClause) (vs : ValueMap)
    (h : ∀ n ∈ optNames o, (vs.lookup n).isSome = true) : optFirstError o vs = none := by
  cases o with
  | none => rfl
  | some pc => exact firstError_none_of_names pc vs h

/-- C2: for a select statement with a non-empty `SelectClauses` list and a
value map holding every parameter name its predicates reference, `buildQuery`
returns the `nil` error and a binding list of the length of `SelectClauses`
whose i-th element is the `Binding()` of the i-th select marker; the binding
list is the same whatever the group-by list is. -/
theorem buildQuery_bindings (upper : String → String) (ss : SelectStatement) (vs : ValueMap)
    (hm : ss.SelectClauses ≠ [])
    (hv : ∀ n ∈ ss.names, (vs.lookup n).isSome = true) :
    (ss.buildQuery upper vs).2.2.2 = none ∧
    (ss.buildQuery upper vs).2.2.1.length = ss.SelectClauses.length ∧
    (∀ i : Nat, (ss.buildQuery upper vs).2.2.1[i]? = (ss.SelectClauses[i]?).map Marker.Binding) ∧
    (∀ g : List Marker,
      ({ ss with GroupByClause := g }.buildQuery upper vs).2.2.1 = (ss.buildQuery upper vs).2.2.1) := by
  have hw : optFirstError ss.WhereClause vs = none :=
    optFirstError_none_of_names _ vs
      (fun n hn => hv n (by simp [SelectStatement.names, hn]))
  have hh : optFirstError ss.HavingClause vs = none :=
    optFirstError_none_of_names _ vs
      (fun n hn => hv n (by simp [SelectStatement.names, hn]))
  have key : ∀ g : List Marker,
      ({ ss with GroupByClause := g }.buildQuery upper vs).2.2 =
        (ss.SelectClauses.map Marker.Binding, none) := by
    intro g
    rw [buildQuery_cases { ss with GroupByClause := g } vs hm]
    simp only [hw, hh]
  have key0 : (ss.buildQuery upper vs).2.2 = (ss.SelectClauses.map Marker.Binding, none) := by
    rw [buildQuery_cases ss vs hm]
    simp only [hw, hh]
  refine ⟨by rw [key0], by rw [key0]; simp, ?_, ?_⟩
  · intro i
    rw [key0]
    simp
  · intro g
    rw [key g, key0]

/-- Witness of C2: a statement with two select markers, a join, where,
group-by and having, built on a value map that resolves every name. -/
theorem buildQuery_bindings_witness :
    exampleFull.SelectClauses ≠ [] ∧
    (∀ n ∈ exampleFull.names, (exampleFullValues.lookup n).isSome = true) ∧
    (exampleFull.buildQuery asciiUpper exampleFullValues).2.2.2 = none ∧
    (exampleFull.buildQuery asciiUpper exampleFullValues).2.2.1 = ["id", "n"] ∧
    (exampleFull.buildQuery asciiUpper exampleFullValues).2.2.1.length = exampleFull.SelectClauses.length :=
  ⟨by decide, by decide,
    (buildQuery_bindings asciiUpper exampleFull exampleFullValues (by decide) (by decide)).1,
    by decide,
    (buildQuery_bindings asciiUpper exampleFull exampleFullValues (by decide) (by decide)).2.1⟩

/-- C3: on a select with one marker and an inner join whose predicate
references a name absent from the value map, the serialization of the join
returns the missing-parameter error, and `buildQuery` nevertheless returns
the `nil` error together with the text written up to the failure. -/
theorem buildQuery_join_error_dropped :
    exampleJoinFail.JoinClauses = [exampleInnerJoin] ∧
    (exampleInnerJoin.WriteTo asciiUpper (queryWriter.zero.WriteString "SELECT id FROM users") []).2 =
      some (Error.missingParameter "uid") ∧
    exampleJoinFail.buildQuery asciiUpper [] =
      ("SELECT id FROM users INNER JOIN orders ON orders.user_id = ", [], ["id"], none) := by
  decide

/-- C4: for a select statement with a select marker, if the where predicate's
serialization returns an error `e` then `buildQuery` returns exactly
`("", nil, nil, e)`, and it does so whatever the having predicate is (the
having predicate is not serialized); if the where predicate succeeds or is
absent and the having predicate's serialization returns an error `e` then
`buildQuery` returns exactly `("", nil, nil, e)`. The writer `qw` the
predicate is observed on is arbitrary. -/
theorem buildQuery_where_having_error (upper : String → String) (ss : SelectStatement) (vs : ValueMap) (e : Error)
    (qw : queryWriter) (hm : ss.SelectClauses ≠ []) :
    (∀ wc, ss.WhereClause = some wc → (wc.WriteTo qw vs).2 = some e →
      ss.buildQuery upper vs = ("", [], [], some e) ∧
      ∀ hc : Option PredicateClause,
        { ss with HavingClause := hc }.buildQuery upper vs = ("", [], [], some e)) ∧
    (∀ hc, ss.HavingClause = some hc →
      (∀ wc, ss.WhereClause = some wc → (wc.WriteTo qw vs).2 = none) →
      (hc.WriteTo qw vs).2 = some e →
      ss.buildQuery upper vs = ("", [], [], some e)) := by
  constructor
  · intro wc hwc he
    rw [WriteTo_error] at he
    have hw : optFirstError ss.WhereClause vs = some e := by rw [hwc]; exact he
    constructor
    · rw [buildQuery_cases ss vs hm]
      simp only [hw]
    · intro hc
      rw [buildQuery_cases { ss with HavingClause := hc } vs hm]
      simp only [hw]
  · intro hc hhc hwok he
    rw [WriteTo_error] at he
    have hh : optFirstError ss.HavingClause vs = some e := by rw [hhc]; exact he
    have hw : optFirstError ss.WhereClause vs = none := by
      cases hwc : ss.WhereClause with
      | none => rfl
      | some wc =>
        have := hwok wc hwc
        rw [WriteTo_error] at this
        exact this
    rw [buildQuery_cases ss vs hm]
    simp only [hw, hh]

/-- Witness of C4: the where predicate of `exampleSelect` fails on the empty
map; the having predicate of `exampleHaving` fails on a map that resolves its
where predicate. -/
theorem buildQuery_where_having_error_witness :
    exampleSelect.buildQuery asciiUpper [] = ("", [], [], some (Error.missingParameter "minAge")) ∧
    exampleHaving.buildQuery asciiUpper [("minAge", Value.int 18)] =
      ("", [], [], some (Error.missingParameter "minCount")) :=
  ⟨((buildQuery_where_having_error asciiUpper exampleSelect [] (Error.missingParameter "minAge")
      queryWriter.zero (by decide)).1 (.comparison "age" ">" "minAge") rfl (by decide)).1,
   (buildQuery_where_having_error asciiUpper exampleHaving [("minAge", Value.int 18)]
      (Error.missingParameter "minCount") queryWriter.zero (by decide)).2
      (.comparison "count(*)" ">" "minCount") rfl
      (fun wc hwc => by
        have h : wc = .comparison "age" ">" "minAge" := by
          simp only [exampleHaving, Option.some.injEq] at hwc
          exact hwc.symm
        subst h
        decide)
      (by decide)⟩

/-! ## `DeleteStatement.buildQuery` -/

/-- C5: for a delete statement with a where predicate that serializes
successfully, `buildQuery` returns the `nil` error, the text
`"DELETE FROM " ++ Table ++ " WHERE "` followed by the text the predicate
writes into a fresh writer, and exactly the values the predicate bound, in
order. -/
theorem delete_buildQuery_ok (ds : DeleteStatement) (vs : ValueMap) (wc : PredicateClause)
    (hw : ds.WhereClause = some wc) (hok : (wc.WriteTo queryWriter.zero vs).2 = none) :
    ds.buildQuery vs =
      Run.ret ("DELETE FROM " ++ ds.Table ++ " WHERE " ++ (wc.WriteTo queryWriter.zero vs).1.buf,
        (wc.WriteTo queryWriter.zero vs).1.vs, none) := by
  have hp : queryWriter.zero.WriteString ("DELETE FROM " ++ ds.Table ++ " WHERE ") =
      prepend ("DELETE FROM " ++ ds.Table ++ " WHERE ") queryWriter.zero := by
    simp [queryWriter.zero, queryWriter.WriteString, prepend]
  unfold DeleteStatement.buildQuery
  simp only [hw, hp, WriteTo_prepend]
  rcases h : wc.WriteTo queryWriter.zero vs with ⟨q, _ | e⟩
  · simp [prepend, queryWriter.String]
  · rw [h] at hok
    simp at hok

/-- Witness of C5: the spec's example builds to
`DELETE FROM sessions WHERE expired = $1` with the bound values `[true]`. -/
theorem delete_buildQuery_ok_witness :
    exampleDelete.buildQuery [("flag", Value.bool true)] =
      Run.ret ("DELETE FROM sessions WHERE expired = $1", [Value.bool true], none) :=
  (delete_buildQuery_ok exampleDelete [("flag", Value.bool true)]
    (.comparison "expired" "=" "flag") rfl (by decide)).trans (by decide)

/-- C6: for a delete statement whose where predicate is absent, `buildQuery`
returns nothing for any value map: the call ends in a run-time panic (the
method call on the `nil` predicate), so no SQL text is produced. -/
theorem delete_buildQuery_nil_where (ds : DeleteStatement) (vs : ValueMap)
    (h : ds.WhereClause = none) :
    ds.buildQuery vs = Run.panic ∧ ∀ r : DeleteResult, ds.buildQuery vs ≠ Run.ret r := by
  have hp : ds.buildQuery vs = Run.panic := by
    simp [DeleteStatement.buildQuery, h]
  refine ⟨hp, ?_⟩
  intro r hr
  rw [hp] at hr
  cases hr

/-- Witness of C6: a delete on `sessions` with no predicate. -/
theorem delete_buildQuery_nil_where_witness :
    exampleDeleteAll.WhereClause = none ∧
    exampleDeleteAll.buildQuery [("flag", Value.bool true)] = Run.panic :=
  ⟨rfl, (delete_buildQuery_nil_where exampleDeleteAll [("flag", Value.bool true)] rfl).1⟩

/-- C7: for a delete statement with a where predicate whose serialization
returns an error `e`, `buildQuery` returns exactly `("", nil, e)`: neither the
prefix already written nor the values bound before the failure are returned.
The writer `qw` the predicate is observed on is arbitrary. -/
theorem delete_buildQuery_error (ds : DeleteStatement) (vs : ValueMap) (wc : PredicateClause)
    (e : Error) (qw : queryWriter)
    (hw : ds.WhereClause = some wc) (he : (wc.WriteTo qw vs).2 = some e) :
    ds.buildQuery vs = Run.ret ("", [], some e) := by
  unfold DeleteStatement.buildQuery
  simp only [hw]
  rw [WriteTo_error_eq wc vs qw
    (queryWriter.zero.WriteString ("DELETE FROM " ++ ds.Table ++ " WHERE "))] at he
  rcases h : wc.WriteTo
    (queryWriter.zero.WriteString ("DELETE FROM " ++ ds.Table ++ " WHERE ")) vs with ⟨q, _ | e2⟩
  · rw [h] at he
    simp at he
  · rw [h] at he
    simp only [Option.some.injEq] at he
    subst he
    rfl

/-- Witness of C7: the predicate binds `flag` and then fails on `age`; the
writer holds the prefix, partial text and the value `true` at the failure, the
caller receives `("", nil, e)`. -/
theorem delete_buildQuery_error_witness :
    (PredicateClause.and (.comparison "expired" "=" "flag") (.comparison "age" ">" "age")).WriteTo
        (queryWriter.zero.WriteString "DELETE FROM sessions WHERE ")
        [("flag", Value.bool true)] =
      (⟨"DELETE FROM sessions WHERE expired = $1 AND age > ", [Value.bool true]⟩,
        some (Error.missingParameter "age")) ∧
    exampleDeleteTwo.buildQuery [("flag", Value.bool true)] =
      Run.ret ("", [], some (Error.missingParameter "age")) :=
  ⟨by decide,
   delete_buildQuery_error exampleDeleteTwo [("flag", Value.bool true)]
    (.and (.comparison "expired" "=" "flag") (.comparison "age" ">" "age"))
    (Error.missingParameter "age") queryWriter.zero rfl (by decide)⟩

/-! ## `JoinClause.WriteTo` and `cloneJoinClauses` -/

/-- C8: for every join clause, `JoinClause.WriteTo` appends
`" " ++ upper(Type) ++ " JOIN " ++ Table` to the writer, `upper` being
`strings.ToUpper`; with no predicate nothing else is written, no value is
bound and the error is `nil`; with a predicate it then appends `" ON "` and
the predicate's own serialization and returns the predicate's result. Since
`strings.ToUpper` maps the ASCII letters `a` to `z` to `A` to `Z` and leaves
the other ASCII characters, the empty default kind is written as the empty
text, `outer` as `OUTER`, and every ASCII kind as its ASCII uppercase. -/
theorem JoinClause_WriteTo_spec (upper : String → String) (jc : JoinClause) (w : queryWriter)
    (vs : ValueMap) :
    (jc.WhereClause = none →
      jc.WriteTo upper w vs =
        (⟨w.buf ++ (" " ++ upper jc.Type_ ++ " JOIN " ++ jc.Table), w.vs⟩, none)) ∧
    (∀ wc, jc.WhereClause = some wc →
      jc.WriteTo upper w vs =
        wc.WriteTo ⟨w.buf ++ (" " ++ upper jc.Type_ ++ " JOIN " ++ jc.Table) ++ " ON ", w.vs⟩ vs ∧
      (jc.WriteTo upper w vs).1.buf =
        w.buf ++ (" " ++ upper jc.Type_ ++ " JOIN " ++ jc.Table ++ " ON ") ++
          (wc.WriteTo ⟨"", w.vs⟩ vs).1.buf ∧
      (jc.WriteTo upper w vs).1.vs = (wc.WriteTo ⟨"", w.vs⟩ vs).1.vs ∧
      (jc.WriteTo upper w vs).2 = (wc.WriteTo ⟨"", w.vs⟩ vs).2) ∧
    ((∀ s : String, isASCII s = true → upper s = asciiUpper s) →
      upper DefaultJoin = "" ∧ upper "outer" = "OUTER" ∧
      (isASCII jc.Type_ = true → jc.WhereClause = none →
        jc.WriteTo upper w vs =
          (⟨w.buf ++ (" " ++ asciiUpper jc.Type_ ++ " JOIN " ++ jc.Table), w.vs⟩, none))) := by
  have hnone : jc.WhereClause = none →
      jc.WriteTo upper w vs =
        (⟨w.buf ++ (" " ++ upper jc.Type_ ++ " JOIN " ++ jc.Table), w.vs⟩, none) := by
    intro h
    simp [JoinClause.WriteTo, h, queryWriter.WriteString]
  refine ⟨hnone, ?_, ?_⟩
  · intro wc h
    have hp : (⟨w.buf ++ (" " ++ upper jc.Type_ ++ " JOIN " ++ jc.Table) ++ " ON ", w.vs⟩ :
        queryWriter) =
        prepend (w.buf ++ (" " ++ upper jc.Type_ ++ " JOIN " ++ jc.Table ++ " ON "))
          ⟨"", w.vs⟩ := by
      simp [prepend, String.append_assoc]
    have h1 : jc.WriteTo upper w vs =
        wc.WriteTo ⟨w.buf ++ (" " ++ upper jc.Type_ ++ " JOIN " ++ jc.Table) ++ " ON ", w.vs⟩
          vs := by
      simp [JoinClause.WriteTo, h, queryWriter.WriteString]
    refine ⟨h1, ?_, ?_, ?_⟩ <;> rw [h1, hp, WriteTo_prepend] <;> simp [prepend]
  · intro hup
    refine ⟨?_, ?_, ?_⟩
    · rw [hup DefaultJoin (by decide)]
      decide
    · rw [hup "outer" (by decide)]
      decide
    · intro ha h
      rw [hnone h, hup jc.Type_ ha]

/-- Witness of C8: with the ASCII uppercase for `upper`, the outer join on
`orders` without predicate writes `" OUTER JOIN orders"` and binds nothing;
the inner join with a predicate writes `" INNER JOIN orders ON "` and then
the predicate; the kind `left outer` is written as `LEFT OUTER`. -/
theorem JoinClause_WriteTo_spec_witness :
    exampleOuterJoin.WriteTo asciiUpper queryWriter.zero [] =
      (⟨" OUTER JOIN orders", []⟩, none) ∧
    exampleInnerJoin.WriteTo asciiUpper queryWriter.zero [("uid", Value.int 7)] =
      (⟨" INNER JOIN orders ON orders.user_id = $1", [Value.int 7]⟩, none) ∧
    asciiUpper "outer" = "OUTER" ∧
    ({ Table := "t_1", Type_ := "left outer", WhereClause := none } : JoinClause).WriteTo
        asciiUpper queryWriter.zero [] =
      (⟨" LEFT OUTER JOIN t_1", []⟩, none) :=
  ⟨((JoinClause_WriteTo_spec asciiUpper exampleOuterJoin queryWriter.zero []).1 rfl).trans
      (by decide),
   (((JoinClause_WriteTo_spec asciiUpper exampleInnerJoin queryWriter.zero
      [("uid", Value.int 7)]).2.1 (.comparison "orders.user_id" "=" "uid") rfl).1).trans
      (by decide),
   ((JoinClause_WriteTo_spec asciiUpper exampleOuterJoin queryWriter.zero []).2.2
      (fun _ _ => rfl)).2.1,
   (((JoinClause_WriteTo_spec asciiUpper
      { Table := "t_1", Type_ := "left outer", WhereClause := none } queryWriter.zero []).2.2
      (fun _ _ => rfl)).2.2 (by decide) rfl).trans (by decide)⟩

/-- A list holding a join with no predicate makes the loop of
`cloneJoinClauses` panic. -/
theorem cloneJoinClausesLoop_panic (jcs : List JoinClause)
    (h : ∃ jc ∈ jcs, jc.WhereClause = none) : cloneJoinClausesLoop jcs = Run.panic := by
  induction jcs with
  | nil => simp at h
  | cons jc rest ih =>
    unfold cloneJoinClausesLoop
    cases hw : jc.WhereClause with
    | none => rfl
    | some wc =>
      have hr : ∃ jc ∈ rest, jc.WhereClause = none := by
        rcases h with ⟨x, hx, hxn⟩
        rcases List.mem_cons.mp hx with rfl | hx
        · rw [hw] at hxn; cases hxn
        · exact ⟨x, hx, hxn⟩
      simp only [ih hr]

/-- Every list containing a join with no predicate makes `cloneJoinClauses`
panic. -/
theorem cloneJoinClauses_panic (jcs : List JoinClause)
    (h : ∃ jc ∈ jcs, jc.WhereClause = none) : cloneJoinClauses jcs = Run.panic := by
  have hne : jcs.length ≠ 0 := by
    rcases h with ⟨x, hx, _⟩
    intro h0
    rw [List.length_eq_zero.mp h0] at hx
    cases hx
  simp only [cloneJoinClauses, hne, if_false]
  exact cloneJoinClausesLoop_panic jcs h

/-- A list in which every join carries a predicate is cloned without panic,
element by element. -/
theorem cloneJoinClauses_ret (jcs : List JoinClause)
    (h : ∀ jc ∈ jcs, jc.WhereClause ≠ none) :
    cloneJoinClauses jcs =
      Run.ret (jcs.map fun jc =>
        { Table := jc.Table, Type_ := jc.Type_, WhereClause := clonePredicateClause jc.WhereClause }) := by
  have loop : ∀ l : List JoinClause, (∀ jc ∈ l, jc.WhereClause ≠ none) →
      cloneJoinClausesLoop l =
        Run.ret (l.map fun jc =>
          { Table := jc.Table, Type_ := jc.Type_,
            WhereClause := clonePredicateClause jc.WhereClause }) := by
    intro l
    induction l with
    | nil => intro _; rfl
    | cons jc rest ih =>
      intro hl
      unfold cloneJoinClausesLoop
      cases hw : jc.WhereClause with
      | none => exact absurd hw (hl jc (List.mem_cons_self _ _))
      | some wc =>
        simp only [ih (fun x hx => hl x (List.mem_cons_of_mem _ hx)), List.map_cons, hw,
          clonePredicateClause]
  unfold cloneJoinClauses
  by_cases h0 : jcs.length = 0
  · simp [h0, List.length_eq_zero.mp h0]
  · simp only [h0, if_false]
    exact loop jcs h

/-- C9: on the one-element list holding the outer join on `orders` with no
predicate, `cloneJoinClauses` does not return: it panics on the method call
`jc.WhereClause.Clone()`, and so does `SelectStatement.Clone` on a statement
holding that list. -/
theorem cloneJoinClauses_nil_predicate_panics :
    exampleOuterJoin.WhereClause = none ∧
    cloneJoinClauses [exampleOuterJoin] = Run.panic ∧
    exampleSelectOuter.JoinClauses = [exampleOuterJoin] ∧
    exampleSelectOuter.Clone = Run.panic := by
  decide

/-! ## Limit and offset -/

/-- C10: when `buildQuery` succeeds on `ss`, its text is the text built from
`ss` with limit and offset marked invalid (whatever their `Int`), followed by
`" LIMIT " ++ decimal(Limit.Int)` exactly when `Limit.Valid`, then by
`" OFFSET " ++ decimal(Offset.Int)` exactly when `Offset.Valid`; the bound
values and the bindings are those of that base build, which succeeds too; a
valid 0 is printed as `0`. -/
theorem buildQuery_limit_offset (upper : String → String) (ss : SelectStatement) (vs : ValueMap) (l o : Int)
    (hok : (ss.buildQuery upper vs).2.2.2 = none) :
    ss.buildQuery upper vs =
      (({ ss with Limit := ⟨l, false⟩, Offset := ⟨o, false⟩ }.buildQuery upper vs).1 ++
          (if ss.Limit.Valid then " LIMIT " ++ fmtInt ss.Limit.Int else "") ++
          (if ss.Offset.Valid then " OFFSET " ++ fmtInt ss.Offset.Int else ""),
        ({ ss with Limit := ⟨l, false⟩, Offset := ⟨o, false⟩ }.buildQuery upper vs).2.1,
        ({ ss with Limit := ⟨l, false⟩, Offset := ⟨o, false⟩ }.buildQuery upper vs).2.2.1,
        none) ∧
    ({ ss with Limit := ⟨l, false⟩, Offset := ⟨o, false⟩ }.buildQuery upper vs).2.2.2 = none ∧
    fmtInt 0 = "0" := by
  have hm : ss.SelectClauses ≠ [] := by
    intro h
    rw [no_markers_build ss vs h] at hok
    simp at hok
  rw [buildQuery_cases ss vs hm] at hok ⊢
  rw [buildQuery_cases { ss with Limit := ⟨l, false⟩, Offset := ⟨o, false⟩ } vs hm]
  simp only []
  cases hw : optFirstError ss.WhereClause vs with
  | some e => simp [hw] at hok
  | none =>
    simp only [hw] at hok ⊢
    cases hh : optFirstError ss.HavingClause vs with
    | some e => simp [hh] at hok
    | none =>
      refine ⟨?_, rfl, by decide⟩
      simp only [SelectStatement.finalWriter, SelectStatement.limitOffset, queryWriter.String]
      have e1 : SelectStatement.whereStep upper
          { ss with Limit := ⟨l, false⟩, Offset := ⟨o, false⟩ } vs = ss.whereStep upper vs := rfl
      have e2 : ∀ q, SelectStatement.havingStep
          { ss with Limit := ⟨l, false⟩, Offset := ⟨o, false⟩ } vs q = ss.havingStep vs q :=
        fun _ => rfl
      rw [e1, e2]
      cases ss.Limit.Valid <;> cases ss.Offset.Valid <;>
        simp [queryWriter.WriteString, String.append_assoc]

/-- Witness of C10: `Limit{10, true}` with an invalid offset appends
`" LIMIT 10"` and no `OFFSET`. -/
theorem buildQuery_limit_offset_witness :
    exampleLimit.buildQuery asciiUpper [("minAge", Value.int 18)] =
      ("SELECT id FROM users WHERE age > $1 LIMIT 10", [Value.int 18], ["id"], none) ∧
    exampleSelect.buildQuery asciiUpper [("minAge", Value.int 18)] =
      ("SELECT id FROM users WHERE age > $1", [Value.int 18], ["id"], none) :=
  ⟨((buildQuery_limit_offset asciiUpper exampleLimit [("minAge", Value.int 18)] 0 0 (by decide)).1).trans
      (by decide),
   by decide⟩

/-! ## Bound values -/

/-- A predicate appends the values it binds to those already bound: the
values after its serialization are the earlier ones followed by those it
binds in a fresh writer. -/
theorem WriteTo_vs (pc : PredicateClause) (vs : ValueMap) :
    ∀ qw : queryWriter,
      (pc.WriteTo qw vs).1.vs = qw.vs ++ (pc.WriteTo queryWriter.zero vs).1.vs := by
  induction pc with
  | comparison column op name =>
    intro qw
    simp only [PredicateClause.WriteTo, queryWriter.bind, queryWriter.WriteString,
      queryWriter.zero]
    cases vs.lookup name <;> simp
  | and l r ihl ihr =>
    intro qw
    have hzr : ∀ q : queryWriter, (r.WriteTo q vs).1.vs =
        q.vs ++ (r.WriteTo queryWriter.zero vs).1.vs := ihr
    simp only [PredicateClause.WriteTo]
    have e1 := writeNested_error l.isCombinator (fun q => l.WriteTo q vs) qw
    have e2 := writeNested_error l.isCombinator (fun q => l.WriteTo q vs) queryWriter.zero
    have v1 := writeNested_vs l.isCombinator (fun q => l.WriteTo q vs) qw
    have v2 := writeNested_vs l.isCombinator (fun q => l.WriteTo q vs) queryWriter.zero
    simp only [WriteTo_error] at e1 e2
    rw [ihl] at v1 v2
    have a1 : (if l.isCombinator = true then qw.WriteString "(" else qw).vs = qw.vs := by
      cases l.isCombinator <;> rfl
    have a2 : (if l.isCombinator = true then queryWriter.zero.WriteString "("
        else queryWriter.zero).vs = [] := by
      cases l.isCombinator <;> rfl
    rw [a1] at v1
    rw [a2, List.nil_append] at v2
    rcases h1 : writeNested l.isCombinator (fun q => l.WriteTo q vs) qw with ⟨q1, x1⟩
    rcases h2 : writeNested l.isCombinator (fun q => l.WriteTo q vs) queryWriter.zero
      with ⟨q2, x2⟩
    rw [h1] at e1 v1
    rw [h2] at e2 v2
    simp only at e1 e2 v1 v2
    subst e1
    cases hx : l.firstError vs with
    | some e =>
      rw [hx] at e2
      subst e2
      simp only [v1, v2]
    | none =>
      rw [hx] at e2
      subst e2
      simp only [writeNested_vs]
      have b1 : (if r.isCombinator = true then (q1.WriteString " AND ").WriteString "("
          else q1.WriteString " AND ").vs = q1.vs := by
        cases r.isCombinator <;> rfl
      have b2 : (if r.isCombinator = true then (q2.WriteString " AND ").WriteString "("
          else q2.WriteString " AND ").vs = q2.vs := by
        cases r.isCombinator <;> rfl
      rw [hzr, b1, v1, hzr (if r.isCombinator = true then
        (q2.WriteString " AND ").WriteString "(" else q2.WriteString " AND "), b2, v2,
        List.append_assoc]
  | or l r ihl ihr =>
    intro qw
    have hzr : ∀ q : queryWriter, (r.WriteTo q vs).1.vs =
        q.vs ++ (r.WriteTo queryWriter.zero vs).1.vs := ihr
    simp only [PredicateClause.WriteTo]
    have e1 := writeNested_error l.isCombinator (fun q => l.WriteTo q vs) qw
    have e2 := writeNested_error l.isCombinator (fun q => l.WriteTo q vs) queryWriter.zero
    have v1 := writeNested_vs l.isCombinator (fun q => l.WriteTo q vs) qw
    have v2 := writeNested_vs l.isCombinator (fun q => l.WriteTo q vs) queryWriter.zero
    simp only [WriteTo_error] at e1 e2
    rw [ihl] at v1 v2
    have a1 : (if l.isCombinator = true then qw.WriteString "(" else qw).vs = qw.vs := by
      cases l.isCombinator <;> rfl
    have a2 : (if l.isCombinator = true then queryWriter.zero.WriteString "("
        else queryWriter.zero).vs = [] := by
      cases l.isCombinator <;> rfl
    rw [a1] at v1
    rw [a2, List.nil_append] at v2
    rcases h1 : writeNested l.isCombinator (fun q => l.WriteTo q vs) qw with ⟨q1, x1⟩
    rcases h2 : writeNested l.isCombinator (fun q => l.WriteTo q vs) queryWriter.zero
      with ⟨q2, x2⟩
    rw [h1] at e1 v1
    rw [h2] at e2 v2
    simp only at e1 e2 v1 v2
    subst e1
    cases hx : l.firstError vs with
    | some e =>
      rw [hx] at e2
      subst e2
      simp only [v1, v2]
    | none =>
      rw [hx] at e2
      subst e2
      simp only [writeNested_vs]
      have b1 : (if r.isCombinator = true then (q1.WriteString " OR ").WriteString "("
          else q1.WriteString " OR ").vs = q1.vs := by
        cases r.isCombinator <;> rfl
      have b2 : (if r.isCombinator = true then (q2.WriteString " OR ").WriteString "("
          else q2.WriteString " OR ").vs = q2.vs := by
        cases r.isCombinator <;> rfl
      rw [hzr, b1, v1, hzr (if r.isCombinator = true then
        (q2.WriteString " OR ").WriteString "(" else q2.WriteString " OR "), b2, v2,
        List.append_assoc]
  | not c ih =>
    intro qw
    simp only [PredicateClause.WriteTo, writeNested_vs]
    rw [ih, ih (if c.isCombinator = true then (queryWriter.zero.WriteString "NOT ").WriteString "("
      else queryWriter.zero.WriteString "NOT ")]
    cases c.isCombinator <;> simp [queryWriter.WriteString, queryWriter.zero]

theorem selectLoop_vs (n : Nat) (cs : List Marker) :
    ∀ (i : Nat) (qw : queryWriter) (bs : List String),
      (selectLoop n i cs (qw, bs)).1.vs = qw.vs := by
  induction cs with
  | nil => intro i qw bs; rfl
  | cons c cs ih =>
    intro i qw bs
    simp only [selectLoop, ih]
    split <;> rfl

theorem groupByLoop_vs (n : Nat) (cs : List Marker) :
    ∀ (i : Nat) (qw : queryWriter), (groupByLoop n i cs qw).vs = qw.vs := by
  induction cs with
  | nil => intro i qw; rfl
  | cons c cs ih =>
    intro i qw
    simp only [groupByLoop, ih]
    split <;> rfl

/-- A join appends the values its predicate binds. -/
theorem JoinClause_WriteTo_vs {upper : String → String} (jc : JoinClause) (qw : queryWriter) (vs : ValueMap) :
    (jc.WriteTo upper qw vs).1.vs = qw.vs ++ optBound jc.WhereClause vs := by
  unfold JoinClause.WriteTo optBound
  cases jc.WhereClause with
  | none => simp [queryWriter.WriteString]
  | some wc => simp only [WriteTo_vs wc vs ((qw.WriteString _).WriteString " ON ")]; rfl

theorem joinLoop_vs {upper : String → String} (vs : ValueMap) (jcs : List JoinClause) :
    ∀ qw : queryWriter, (joinLoop upper vs jcs qw).vs = qw.vs ++ joinBound vs jcs := by
  induction jcs with
  | nil => intro qw; simp [joinLoop, joinBound]
  | cons jc rest ih =>
    intro qw
    simp only [joinLoop, joinBound, ih, JoinClause_WriteTo_vs, List.append_assoc]

theorem headWriter_vs {upper : String → String} (ss : SelectStatement) (vs : ValueMap) :
    (ss.headWriter upper vs).vs = joinBound vs ss.JoinClauses := by
  unfold SelectStatement.headWriter
  rw [joinLoop_vs]
  simp only [queryWriter.WriteString, selectLoop_vs]
  rfl

theorem whereStep_vs {upper : String → String} (ss : SelectStatement) (vs : ValueMap) :
    (ss.whereStep upper vs).1.vs = joinBound vs ss.JoinClauses ++ optBound ss.WhereClause vs := by
  unfold SelectStatement.whereStep optBound
  cases ss.WhereClause with
  | none => simp [headWriter_vs]
  | some wc =>
    simp only [WriteTo_vs wc vs ((ss.headWriter upper vs).WriteString " WHERE ")]
    simp only [queryWriter.WriteString, headWriter_vs]

theorem groupWriter_vs (ss : SelectStatement) (qw : queryWriter) :
    (ss.groupWriter qw).vs = qw.vs := by
  unfold SelectStatement.groupWriter
  split
  · rw [groupByLoop_vs]; rfl
  · rfl

theorem havingStep_vs (ss : SelectStatement) (vs : ValueMap) (qw : queryWriter) :
    (ss.havingStep vs qw).1.vs = qw.vs ++ optBound ss.HavingClause vs := by
  unfold SelectStatement.havingStep optBound
  cases ss.HavingClause with
  | none => simp [groupWriter_vs]
  | some hc =>
    simp only [WriteTo_vs hc vs ((ss.groupWriter qw).WriteString " HAVING ")]
    simp only [queryWriter.WriteString, groupWriter_vs]

theorem limitOffset_vs (ss : SelectStatement) (qw : queryWriter) :
    (ss.limitOffset qw).vs = qw.vs := by
  unfold SelectStatement.limitOffset
  cases ss.Limit.Valid <;> cases ss.Offset.Valid <;> rfl

theorem finalWriter_vs {upper : String → String} (ss : SelectStatement) (vs : ValueMap) :
    (ss.finalWriter upper vs).vs =
      joinBound vs ss.JoinClauses ++ optBound ss.WhereClause vs ++
        optBound ss.HavingClause vs := by
  unfold SelectStatement.finalWriter
  rw [limitOffset_vs, havingStep_vs, whereStep_vs]

/-- A successful build has a select marker and no where or having error, and
returns the text and values of its final writer. -/
theorem buildQuery_of_ok {upper : String → String} (ss : SelectStatement) (vs : ValueMap)
    (hok : (ss.buildQuery upper vs).2.2.2 = none) :
    ss.SelectClauses ≠ [] ∧ optFirstError ss.WhereClause vs = none ∧
    optFirstError ss.HavingClause vs = none ∧
    ss.buildQuery upper vs = ((ss.finalWriter upper vs).String, (ss.finalWriter upper vs).vs,
      ss.SelectClauses.map Marker.Binding, none) := by
  have hm : ss.SelectClauses ≠ [] := by
    intro h
    rw [no_markers_build ss vs h] at hok
    simp at hok
  have hc := @buildQuery_cases upper ss vs hm
  rw [hc] at hok
  cases hw : optFirstError ss.WhereClause vs with
  | some e => simp [hw] at hok
  | none =>
    simp only [hw] at hok
    cases hh : optFirstError ss.HavingClause vs with
    | some e => simp [hh] at hok
    | none =>
      refine ⟨hm, rfl, rfl, ?_⟩
      rw [hc]
      simp only [hw, hh]

theorem intercalate_go_append (p s : String) (l : List String) :
    ∀ acc : String, String.intercalate.go (p ++ acc) s l = p ++ String.intercalate.go acc s l := by
  induction l with
  | nil => intro acc; rfl
  | cons a l ih =>
    intro acc
    simp only [String.intercalate.go]
    rw [String.append_assoc, String.append_assoc, ih, ← String.append_assoc]

/-- The separated list of at least two fragments starts with the first
fragment and the separator. -/
theorem intercalate_cons_cons (s a b : String) (l : List String) :
    s.intercalate (a :: b :: l) = a ++ s ++ s.intercalate (b :: l) := by
  simp only [String.intercalate, String.intercalate.go]
  rw [String.append_assoc, intercalate_go_append, intercalate_go_append, String.append_assoc]

/-- The text a predicate leaves in a writer is the text the writer held
followed by the text the predicate writes into an empty writer holding the
same bound values. -/
theorem WriteTo_buf (pc : PredicateClause) (qw : queryWriter) (vs : ValueMap) :
    (pc.WriteTo qw vs).1.buf = qw.buf ++ (pc.WriteTo ⟨"", qw.vs⟩ vs).1.buf := by
  have h := WriteTo_prepend pc qw.buf vs ⟨"", qw.vs⟩
  have hq : prepend qw.buf ⟨"", qw.vs⟩ = qw := by
    simp [prepend]
  rw [hq] at h
  rw [h]
  rfl

/-- The select loop, started at an index `i` with `i + len(cs) = n`, appends
the separated list of the fragments of `cs`. -/
theorem selectLoop_buf (n : Nat) (cs : List Marker) :
    ∀ (i : Nat) (qw : queryWriter) (bs : List String), i + cs.length = n →
      (selectLoop n i cs (qw, bs)).1.buf = qw.buf ++ markerList cs := by
  induction cs with
  | nil => intro i qw bs _; simp [selectLoop, markerList, String.intercalate]
  | cons c cs ih =>
    intro i qw bs hn
    cases cs with
    | nil =>
      have hi : ¬ i < n - 1 := by simp at hn; omega
      simp [selectLoop, hi, markerList, String.intercalate, String.intercalate.go,
        queryWriter.WriteString]
    | cons d cs =>
      have hi : i < n - 1 := by simp at hn; omega
      have := ih (i + 1) ((qw.WriteString c.ToSQL).WriteString ", ") (bs ++ [c.Binding])
        (by simp at hn ⊢; omega)
      rw [selectLoop]
      simp only [hi, if_true]
      rw [this]
      simp only [markerList, List.map_cons, intercalate_cons_cons, queryWriter.WriteString,
        String.append_assoc]

/-- The group-by loop, started at an index `i` with `i + len(cs) = n`, appends
the separated list of the fragments of `cs`. -/
theorem groupByLoop_buf (n : Nat) (cs : List Marker) :
    ∀ (i : Nat) (qw : queryWriter), i + cs.length = n →
      (groupByLoop n i cs qw).buf = qw.buf ++ markerList cs := by
  induction cs with
  | nil => intro i qw _; simp [groupByLoop, markerList, String.intercalate]
  | cons c cs ih =>
    intro i qw hn
    cases cs with
    | nil =>
      have hi : ¬ i < n - 1 := by simp at hn; omega
      simp [groupByLoop, hi, markerList, String.intercalate, String.intercalate.go,
        queryWriter.WriteString]
    | cons d cs =>
      have hi : i < n - 1 := by simp at hn; omega
      have := ih (i + 1) ((qw.WriteString c.ToSQL).WriteString ", ") (by simp at hn ⊢; omega)
      rw [groupByLoop]
      simp only [hi, if_true]
      rw [this]
      simp only [markerList, List.map_cons, intercalate_cons_cons, queryWriter.WriteString,
        String.append_assoc]

theorem JoinClause_WriteTo_prepend {upper : String → String} (jc : JoinClause) (p : String) (qw : queryWriter)
    (vs : ValueMap) :
    (jc.WriteTo upper (prepend p qw) vs).1 = prepend p (jc.WriteTo upper qw vs).1 := by
  unfold JoinClause.WriteTo
  cases jc.WhereClause with
  | none => simp only [prepend_WriteString]
  | some wc => simp only [prepend_WriteString, WriteTo_prepend]

theorem joinLoop_prepend {upper : String → String} (vs : ValueMap) (p : String) (jcs : List JoinClause) :
    ∀ qw : queryWriter, joinLoop upper vs jcs (prepend p qw) = prepend p (joinLoop upper vs jcs qw) := by
  induction jcs with
  | nil => intro qw; rfl
  | cons jc rest ih =>
    intro qw
    simp only [joinLoop, JoinClause_WriteTo_prepend, ih]

theorem headWriter_buf {upper : String → String} (ss : SelectStatement) (vs : ValueMap) :
    (ss.headWriter upper vs).buf = ss.headText ++ ss.joinsText upper vs := by
  unfold SelectStatement.headWriter SelectStatement.headText SelectStatement.joinsText
  have h := selectLoop_buf ss.SelectClauses.length ss.SelectClauses 0
    (queryWriter.zero.WriteString "SELECT ") [] (by simp)
  have hv := selectLoop_vs ss.SelectClauses.length ss.SelectClauses 0
    (queryWriter.zero.WriteString "SELECT ") []
  have hq : (((selectLoop ss.SelectClauses.length 0 ss.SelectClauses
      (queryWriter.zero.WriteString "SELECT ", [])).1.WriteString " FROM ").WriteString
        ss.Table) =
      prepend ("SELECT " ++ markerList ss.SelectClauses ++ " FROM " ++ ss.Table)
        queryWriter.zero := by
    rcases hs : (selectLoop ss.SelectClauses.length 0 ss.SelectClauses
      (queryWriter.zero.WriteString "SELECT ", [])).1 with ⟨b, v⟩
    rw [hs] at h hv
    simp only [queryWriter.WriteString, queryWriter.zero] at h hv ⊢
    simp only [prepend, h, hv, String.empty_append, String.append_empty]
  rw [hq, joinLoop_prepend]
  rfl

theorem whereStep_buf {upper : String → String} (ss : SelectStatement) (vs : ValueMap) :
    (ss.whereStep upper vs).1.buf = ss.headText ++ ss.joinsText upper vs ++ ss.whereText vs := by
  unfold SelectStatement.whereStep SelectStatement.whereText
  cases ss.WhereClause with
  | none => simp [headWriter_buf]
  | some wc =>
    simp only [WriteTo_buf wc ((ss.headWriter upper vs).WriteString " WHERE ")]
    simp only [queryWriter.WriteString, headWriter_buf, headWriter_vs, String.append_assoc]

theorem groupWriter_buf (ss : SelectStatement) (qw : queryWriter) :
    (ss.groupWriter qw).buf = qw.buf ++ ss.groupText := by
  unfold SelectStatement.groupWriter SelectStatement.groupText
  split
  · rw [groupByLoop_buf _ _ 0 _ (by simp)]
    simp [queryWriter.WriteString, String.append_assoc]
  · simp

theorem havingStep_buf {upper : String → String} (ss : SelectStatement) (vs : ValueMap) :
    (ss.havingStep vs (ss.whereStep upper vs).1).1.buf =
      (ss.whereStep upper vs).1.buf ++ ss.groupText ++ ss.havingText vs := by
  unfold SelectStatement.havingStep SelectStatement.havingText
  cases ss.HavingClause with
  | none => simp [groupWriter_buf]
  | some hc =>
    simp only [WriteTo_buf hc ((ss.groupWriter (ss.whereStep upper vs).1).WriteString " HAVING ")]
    simp only [queryWriter.WriteString, groupWriter_buf, groupWriter_vs, whereStep_vs,
      String.append_assoc]

theorem limitOffset_buf (ss : SelectStatement) (qw : queryWriter) :
    (ss.limitOffset qw).buf = qw.buf ++ ss.limitText := by
  unfold SelectStatement.limitOffset SelectStatement.limitText
  cases ss.Limit.Valid <;> cases ss.Offset.Valid <;>
    simp [queryWriter.WriteString, String.append_assoc]

/-- The text of the final writer is the concatenation of the clause texts in
the order select, from, joins, where, group by, having, limit, offset. -/
theorem finalWriter_buf {upper : String → String} (ss : SelectStatement) (vs : ValueMap) :
    (ss.finalWriter upper vs).buf =
      ss.headText ++ ss.joinsText upper vs ++ ss.whereText vs ++ ss.groupText ++
        ss.havingText vs ++ ss.limitText := by
  unfold SelectStatement.finalWriter
  rw [limitOffset_buf, havingStep_buf, whereStep_buf]

/-- C12: for a select statement with a non-empty marker list, no joins, no
group-by markers, no having predicate and invalid limit and offset: without a
where predicate `buildQuery` returns the text `"SELECT "`, the markers'
fragments in list order separated by `", "`, `" FROM "` and the table, with no
bound value; with a where predicate that serializes successfully the text is
that string followed by `" WHERE "` and the predicate's serialization, and the
bound values are those of the predicate. The bindings are the markers'
binding names. -/
theorem buildQuery_plain_select (upper : String → String) (ss : SelectStatement) (vs : ValueMap)
    (hm : ss.SelectClauses ≠ []) (hj : ss.JoinClauses = []) (hg : ss.GroupByClause = [])
    (hh : ss.HavingClause = none) (hl : ss.Limit.Valid = false)
    (ho : ss.Offset.Valid = false) :
    (ss.WhereClause = none →
      ss.buildQuery upper vs =
        ("SELECT " ++ ", ".intercalate (ss.SelectClauses.map Marker.ToSQL) ++ " FROM " ++
            ss.Table,
          [], ss.SelectClauses.map Marker.Binding, none)) ∧
    (∀ wc, ss.WhereClause = some wc → (wc.WriteTo queryWriter.zero vs).2 = none →
      ss.buildQuery upper vs =
        ("SELECT " ++ ", ".intercalate (ss.SelectClauses.map Marker.ToSQL) ++ " FROM " ++
            ss.Table ++ " WHERE " ++ (wc.WriteTo queryWriter.zero vs).1.buf,
          (wc.WriteTo queryWriter.zero vs).1.vs, ss.SelectClauses.map Marker.Binding,
          none)) := by
  have hhe : optFirstError ss.HavingClause vs = none := by rw [hh]; rfl
  have hjt : ss.joinsText upper vs = "" := by
    simp [SelectStatement.joinsText, hj, joinLoop, queryWriter.zero]
  have hgt : ss.groupText = "" := by simp [SelectStatement.groupText, hg]
  have hht : ss.havingText vs = "" := by simp [SelectStatement.havingText, hh]
  have hlt : ss.limitText = "" := by simp [SelectStatement.limitText, hl, ho]
  have hjb : joinBound vs ss.JoinClauses = [] := by rw [hj]; rfl
  have hhb : optBound ss.HavingClause vs = [] := by rw [hh]; rfl
  constructor
  · intro hw
    have hwe : optFirstError ss.WhereClause vs = none := by rw [hw]; rfl
    have hwt : ss.whereText vs = "" := by simp [SelectStatement.whereText, hw]
    have hwb : optBound ss.WhereClause vs = [] := by rw [hw]; rfl
    rw [buildQuery_cases ss vs hm]
    simp only [hwe, hhe, queryWriter.String, finalWriter_buf, finalWriter_vs, hjt, hgt, hht,
      hlt, hwt, hjb, hhb, hwb, String.append_empty, List.append_nil,
      SelectStatement.headText, markerList]
  · intro wc hw hok
    have hwe : optFirstError ss.WhereClause vs = none := by
      rw [hw]
      rw [WriteTo_error] at hok
      exact hok
    have hwt : ss.whereText vs = " WHERE " ++ (wc.WriteTo queryWriter.zero vs).1.buf := by
      simp only [SelectStatement.whereText, hw, hjb]
      rfl
    have hwb : optBound ss.WhereClause vs = (wc.WriteTo queryWriter.zero vs).1.vs := by
      rw [hw]; rfl
    rw [buildQuery_cases ss vs hm]
    simp only [hwe, hhe, queryWriter.String, finalWriter_buf, finalWriter_vs, hjt, hgt, hht,
      hlt, hwt, hjb, hhb, hwb, String.append_empty, List.append_nil, List.nil_append,
      SelectStatement.headText, markerList, String.append_assoc]

/-- Witness of C12: the spec's example builds to
`SELECT id FROM users WHERE age > $1` with values `[18]` and bindings `[id]`;
two markers without where build to `SELECT id, name FROM users`. -/
theorem buildQuery_plain_select_witness :
    exampleSelect.buildQuery asciiUpper [("minAge", Value.int 18)] =
      ("SELECT id FROM users WHERE age > $1", [Value.int 18], ["id"], none) ∧
    examplePlain.buildQuery asciiUpper [] = ("SELECT id, name FROM users", [], ["id", "name"], none) :=
  ⟨((buildQuery_plain_select asciiUpper exampleSelect [("minAge", Value.int 18)] (by decide) rfl rfl rfl
      rfl rfl).2 (.comparison "age" ">" "minAge") rfl (by decide)).trans (by decide),
   ((buildQuery_plain_select asciiUpper examplePlain [] (by decide) rfl rfl rfl rfl rfl).1 rfl).trans
      (by decide)⟩

/-- C13: when `buildQuery` succeeds, its text is the text up to and including
the where clause, then the group-by text, then the having, limit and offset
texts. The group-by text is empty for an empty group-by list and otherwise
`" GROUP BY "` followed by the group-by markers' fragments in list order
separated by `", "`; the where text, when a where predicate is present, is
`" WHERE "` and its serialization, the having text is `" HAVING "` and its
serialization. The returned bindings are the select markers' binding names,
whatever the group-by list is. -/
theorem buildQuery_group_by (upper : String → String) (ss : SelectStatement) (vs : ValueMap)
    (hok : (ss.buildQuery upper vs).2.2.2 = none) :
    (ss.buildQuery upper vs).1 =
      (ss.headText ++ ss.joinsText upper vs ++ ss.whereText vs) ++ ss.groupText ++
        (ss.havingText vs ++ ss.limitText) ∧
    (ss.GroupByClause = [] → ss.groupText = "") ∧
    (ss.GroupByClause ≠ [] →
      ss.groupText = " GROUP BY " ++ ", ".intercalate (ss.GroupByClause.map Marker.ToSQL)) ∧
    (∀ wc, ss.WhereClause = some wc →
      ss.whereText vs = " WHERE " ++ (wc.WriteTo ⟨"", joinBound vs ss.JoinClauses⟩ vs).1.buf) ∧
    (∀ hc, ss.HavingClause = some hc →
      ss.havingText vs = " HAVING " ++
        (hc.WriteTo ⟨"", joinBound vs ss.JoinClauses ++ optBound ss.WhereClause vs⟩ vs).1.buf) ∧
    (ss.buildQuery upper vs).2.2.1 = ss.SelectClauses.map Marker.Binding ∧
    (∀ g : List Marker,
      ({ ss with GroupByClause := g }.buildQuery upper vs).2.2.1 = (ss.buildQuery upper vs).2.2.1) := by
  have h := buildQuery_of_ok ss vs hok
  refine ⟨?_, ?_, ?_, ?_, ?_, ?_, ?_⟩
  · rw [h.2.2.2]
    simp only [queryWriter.String, finalWriter_buf, String.append_assoc]
  · intro hg
    simp [SelectStatement.groupText, hg]
  · intro hg
    have : ss.GroupByClause.length > 0 := List.length_pos.mpr hg
    simp [SelectStatement.groupText, this, markerList]
  · intro wc hw
    simp only [SelectStatement.whereText, hw]
  · intro hc hh
    simp only [SelectStatement.havingText, hh]
  · rw [h.2.2.2]
  · intro g
    rw [h.2.2.2, buildQuery_cases { ss with GroupByClause := g } vs h.1]
    simp only [h.2.1, h.2.2.1]

set_option maxRecDepth 8192 in
/-- Witness of C13: `exampleFull` has the group-by list `[users.id]`, whose
binding `gid` is not returned; `exampleSelect` has none. -/
theorem buildQuery_group_by_witness :
    (exampleFull.buildQuery asciiUpper exampleFullValues).1 =
      "SELECT users.id, count(*) FROM users INNER JOIN orders ON orders.user_id = $1" ++
      " WHERE age > $2 AND (city = $3 OR city = $4)" ++ " GROUP BY users.id" ++
      " HAVING count(*) > $5" ∧
    exampleFull.groupText = " GROUP BY users.id" ∧
    (exampleFull.buildQuery asciiUpper exampleFullValues).2.2.1 = ["id", "n"] ∧
    exampleSelect.groupText = "" :=
  ⟨((buildQuery_group_by asciiUpper exampleFull exampleFullValues (by decide)).1).trans (by decide),
   ((buildQuery_group_by asciiUpper exampleFull exampleFullValues (by decide)).2.2.1 (by decide)).trans
      (by decide),
   ((buildQuery_group_by asciiUpper exampleFull exampleFullValues (by decide)).2.2.2.2.2.1).trans
      (by decide),
   by decide⟩

/-! ## Clone -/

/-- The clone of a predicate is structurally equal to the predicate. -/
theorem PredicateClause_Clone_eq (pc : PredicateClause) : pc.Clone = pc := by
  induction pc with
  | comparison column op name => rfl
  | and l r ihl ihr => simp only [PredicateClause.Clone, ihl, ihr]
  | or l r ihl ihr => simp only [PredicateClause.Clone, ihl, ihr]
  | not c ih => simp only [PredicateClause.Clone, ih]

theorem clonePredicateClause_eq (o : Option PredicateClause) : clonePredicateClause o = o := by
  cases o with
  | none => rfl
  | some pc => simp only [clonePredicateClause, PredicateClause_Clone_eq]

theorem cloneMarkers_eq (ms : List Marker) : cloneMarkers ms = ms := by
  unfold cloneMarkers
  induction ms with
  | nil => rfl
  | cons m ms ih => simp only [List.map_cons, ih]

/-- C14: for a select statement in which every join carries a predicate,
`Clone` returns a statement with the same table, limit and offset, with join,
select-marker and group-by lists equal to the originals element by element
(hence of the same lengths and order), and with where and having predicates
equal to the originals (absent stays absent); the clone therefore builds, for
every value map, to the same text, bound values, bindings and error. -/
theorem Clone_structurally_equal (ss : SelectStatement)
    (hj : ∀ jc ∈ ss.JoinClauses, jc.WhereClause ≠ none) :
    ∃ c : SelectStatement, ss.Clone = Run.ret c ∧
      c.Table = ss.Table ∧ c.Limit = ss.Limit ∧ c.Offset = ss.Offset ∧
      c.JoinClauses.length = ss.JoinClauses.length ∧
      c.SelectClauses.length = ss.SelectClauses.length ∧
      c.GroupByClause.length = ss.GroupByClause.length ∧
      c.JoinClauses = ss.JoinClauses ∧ c.SelectClauses = ss.SelectClauses ∧
      c.GroupByClause = ss.GroupByClause ∧
      c.WhereClause = ss.WhereClause ∧ c.HavingClause = ss.HavingClause ∧
      ∀ (upper : String → String) (vs : ValueMap),
        c.buildQuery upper vs = ss.buildQuery upper vs := by
  have hjc : cloneJoinClauses ss.JoinClauses = Run.ret ss.JoinClauses := by
    rw [cloneJoinClauses_ret ss.JoinClauses hj]
    congr 1
    have : (fun jc : JoinClause =>
        ({ Table := jc.Table, Type_ := jc.Type_,
           WhereClause := clonePredicateClause jc.WhereClause } : JoinClause)) = id := by
      funext jc
      simp only [clonePredicateClause_eq, id]
    rw [this, List.map_id]
  have hc : ss.Clone = Run.ret ss := by
    unfold SelectStatement.Clone
    simp only [hjc, cloneMarkers_eq, clonePredicateClause_eq]
  exact ⟨ss, hc, rfl, rfl, rfl, rfl, rfl, rfl, rfl, rfl, rfl, rfl, rfl, fun _ _ => rfl⟩

/-- Witness of C14: `exampleFull`, whose only join carries a predicate, is
cloned to an equal statement. -/
theorem Clone_structurally_equal_witness :
    (∀ jc ∈ exampleFull.JoinClauses, jc.WhereClause ≠ none) ∧
    exampleFull.Clone = Run.ret exampleFull ∧
    ∃ c : SelectStatement, exampleFull.Clone = Run.ret c ∧
      ∀ (upper : String → String) (vs : ValueMap),
        c.buildQuery upper vs = exampleFull.buildQuery upper vs :=
  ⟨by decide, by decide,
   (Clone_structurally_equal exampleFull (by decide)).elim
     fun c h => ⟨c, h.1, h.2.2.2.2.2.2.2.2.2.2.2.2⟩⟩

end sqlbuilder

namespace postgres

/-- Without an in-memory certificate the first block of `sslValues` changes
nothing and returns no error. -/
theorem certBlock_no_cert (ops : FileOps) (c : Config) (h : c.CACert = none) :
    c.certBlock ops = (c, none) := by
  unfold Config.certBlock
  split
  · simp only [h]
  · rfl

/-- C16: for a configuration with no in-memory certificate, `sslValues`
returns no error and leaves the configuration as it is; the returned values
hold `sslmode`, which is `SSLMode` when that is non-empty, otherwise
`verify-ca` when `CACertFile` is non-empty, otherwise `disable`; they hold
`sslrootcert`, with the value `CACertFile`, exactly when `CACertFile` is
non-empty; they hold no other key. -/
theorem sslValues_no_cert (ops : FileOps) (c : Config) (h : c.CACert = none) :
    (c.sslValues ops).2.2 = none ∧
    (c.sslValues ops).1 = c ∧
    (c.sslValues ops).2.1 =
      ("sslmode", [if c.SSLMode ≠ "" then c.SSLMode
                   else if c.CACertFile ≠ "" then "verify-ca" else "disable"]) ::
        (if c.CACertFile ≠ "" then [("sslrootcert", [c.CACertFile])] else []) ∧
    (c.sslValues ops).2.1.lookup "sslmode" =
      some [if c.SSLMode ≠ "" then c.SSLMode
            else if c.CACertFile ≠ "" then "verify-ca" else "disable"] ∧
    (c.sslValues ops).2.1.lookup "sslrootcert" =
      (if c.CACertFile ≠ "" then some [c.CACertFile] else none) ∧
    (∀ k : String, k ≠ "sslmode" → k ≠ "sslrootcert" →
      (c.sslValues ops).2.1.lookup k = none) := by
  have hv : c.sslValues ops =
      (c, (("sslmode", [if c.SSLMode ≠ "" then c.SSLMode
                   else if c.CACertFile ≠ "" then "verify-ca" else "disable"]) ::
        (if c.CACertFile ≠ "" then [("sslrootcert", [c.CACertFile])] else []), none)) := by
    unfold Config.sslValues
    rw [certBlock_no_cert ops c h]
    by_cases hf : c.CACertFile = ""
    · simp [hf, Disable]
    · simp [hf, Values.set, VerifyCA]
  rw [hv]
  refine ⟨rfl, rfl, rfl, ?_, ?_, ?_⟩
  · simp [List.lookup]
  · by_cases hf : c.CACertFile = ""
    · simp [hf, List.lookup]
    · simp [hf, List.lookup]
  · intro k h1 h2
    have e1 : (k == "sslmode") = false := beq_eq_false_iff_ne.mpr h1
    have e2 : (k == "sslrootcert") = false := beq_eq_false_iff_ne.mpr h2
    by_cases hf : c.CACertFile = "" <;> simp [hf, List.lookup, e1, e2]

/-- Witness of C16: an explicit `require` wins over the certificate file,
which is still passed as `sslrootcert`; a certificate file alone selects
`verify-ca`; nothing set selects `disable` and no `sslrootcert`. -/
theorem sslValues_no_cert_witness :
    (exampleRequire.sslValues exampleOps).2 =
      ([("sslmode", ["require"]), ("sslrootcert", ["/etc/ca.pem"])], none) ∧
    (exampleCAFile.sslValues exampleOps).2 =
      ([("sslmode", ["verify-ca"]), ("sslrootcert", ["/etc/ca.pem"])], none) ∧
    (exampleEmpty.sslValues exampleOps).2 = ([("sslmode", ["disable"])], none) :=
  ⟨Prod.ext ((sslValues_no_cert exampleOps exampleRequire rfl).2.2.1.trans (by decide))
      (sslValues_no_cert exampleOps exampleRequire rfl).1,
   Prod.ext ((sslValues_no_cert exampleOps exampleCAFile rfl).2.2.1.trans (by decide))
      (sslValues_no_cert exampleOps exampleCAFile rfl).1,
   Prod.ext ((sslValues_no_cert exampleOps exampleEmpty rfl).2.2.1.trans (by decide))
      (sslValues_no_cert exampleOps exampleEmpty rfl).1⟩

/-- The first block of `sslValues` leaves host, port, user, password and
database name as they are. -/
theorem certBlock_keeps (ops : FileOps) (c : Config) :
    (c.certBlock ops).1.Host = c.Host ∧ (c.certBlock ops).1.Port = c.Port ∧
    (c.certBlock ops).1.User = c.User ∧ (c.certBlock ops).1.Password = c.Password ∧
    (c.certBlock ops).1.DBName = c.DBName := by
  unfold Config.certBlock
  split
  · cases c.CACert with
    | none => exact ⟨rfl, rfl, rfl, rfl, rfl⟩
    | some cert =>
      simp only []
      split <;> exact ⟨rfl, rfl, rfl, rfl, rfl⟩
  · exact ⟨rfl, rfl, rfl, rfl, rfl⟩

/-- C17: the host component of the URL `DSN` builds is
`host() ++ ":" ++ decimal(port())`; `host()` is `localhost` when `Host` is
empty and `Host` otherwise; `port()` is 5432 when `Port` is 0 and `Port`
otherwise, so a configuration with neither set yields `localhost:5432`;
`userInfo()` is absent if and only if `User` and `Password` are both empty.
When `DSN` returns no error, its text is `url.URL.String` of a URL with that
host component. -/
theorem DSN_host_port (c : Config) (encode : Values → String) (q : Values) :
    (c.dsnURL encode q).Host = c.host ++ ":" ++ fmtInt c.port ∧
    c.host = (if c.Host = "" then "localhost" else c.Host) ∧
    c.port = (if c.Port = 0 then 5432 else c.Port) ∧
    (c.Host = "" → c.Port = 0 → (c.dsnURL encode q).Host = "localhost:5432") ∧
    (c.userInfo = none ↔ c.User = "" ∧ c.Password = "") ∧
    (∀ (ops : FileOps) (urlString : URL → String),
      (c.DSN ops encode urlString).2.2 = none →
      (c.DSN ops encode urlString).2.1 =
        urlString ((c.sslValues ops).1.dsnURL encode (c.sslValues ops).2.1) ∧
      ((c.sslValues ops).1.dsnURL encode (c.sslValues ops).2.1).Host =
        c.host ++ ":" ++ fmtInt c.port) := by
  refine ⟨rfl, rfl, rfl, ?_, ?_, ?_⟩
  · intro hh hp
    simp only [Config.dsnURL, Config.host, Config.port, hh, hp, if_true]
    decide
  · unfold Config.userInfo
    constructor
    · intro hu
      by_cases h : c.User = "" ∧ c.Password = ""
      · exact h
      · simp only [h, if_false] at hu
        split at hu <;> cases hu
    · intro h
      simp only [h, and_self, if_true]
  · intro ops urlString hok
    have hk := certBlock_keeps ops c
    have h1 : (c.sslValues ops).1 = (c.certBlock ops).1 := by
      unfold Config.sslValues
      rcases c.certBlock ops with ⟨c1, _ | e⟩ <;> rfl
    constructor
    · unfold Config.DSN at hok ⊢
      rcases hs : c.sslValues ops with ⟨c1, qv, _ | e⟩
      · rfl
      · rw [hs] at hok
        simp at hok
    · simp only [Config.dsnURL, Config.host, Config.port, h1, hk.1, hk.2.1]

/-- Witness of C17: a configuration with nothing set yields
`localhost:5432` and no user information; one with host and port set yields
them. -/
theorem DSN_host_port_witness :
    (exampleEmpty.dsnURL (fun _ => "") []).Host = "localhost:5432" ∧
    exampleEmpty.userInfo = none ∧
    (exampleRequire.dsnURL (fun _ => "") []).Host = "db.internal:6432" ∧
    (exampleEmpty.DSN exampleOps (fun _ => "") (fun u => u.Host)).2 =
      ("localhost:5432", none) :=
  ⟨(DSN_host_port exampleEmpty (fun _ => "") []).2.2.2.1 rfl rfl,
   (DSN_host_port exampleEmpty (fun _ => "") []).2.2.2.2.1.mpr ⟨rfl, rfl⟩,
   (DSN_host_port exampleRequire (fun _ => "") []).1.trans (by decide),
   by decide⟩

end postgres
